import Mathlib

/-!
# Verification of the cifmt core against its specification

This file embeds the core of the `cifmt` crate (streaming line parser,
tool-format detection, GitHub Actions command rendering, and the
message-taxonomy wire codec) as executable Lean definitions, and proves
or refutes the specification claims about them.

Conventions of the embedding:
* raw bytes are `Nat` values (`10` is the line terminator, `123` the
  record-opening delimiter, i.e. the opening brace);
* the serde deserializer for a tool's message type is an abstract
  parameter `f : List Nat → Option M` (it is a pure function of the
  line's bytes); a `none` result stands for a `serde_json::Error`, and
  the error value carried by `Err` is modelled by the offending line;
* Rust `usize`/`u32`/`u64` values are `Nat`, `f64` values are modelled as
  exact rationals `ℚ`;
* JSON wire values are the inductive `Json` below, with numbers as `ℚ`.
-/

namespace Cifmt

/-- A single entry of the vector returned by a tool's `parse`:
`Ok(message)` or `Err(error)`.  The `serde_json::Error` value is a
function of the offending line, so the error is modelled by that line. -/
inductive ParseResult (M : Type) where
  | ok (msg : M)
  | err (line : List Nat)
  deriving DecidableEq

/-- Splitting off the first complete line of the buffer: the source locates
the first `b'\n'` (`self.buffer.iter().position(|&b| b == b'\n')`),
drains everything up to and including it, and strips the trailing
newline.  Returns the line (without its newline) and the rest of the
buffer, or `none` when the buffer holds no newline. -/
def splitAtNl : List Nat → Option (List Nat × List Nat)
  | [] => none
  | b :: rest =>
    if b = 10 then some ([], rest)
    else
      match splitAtNl rest with
      | some (l, r) => some (b :: l, r)
      | none => none

/-- Shape of a successful split: the buffer is the line, the newline, and
the rest. -/
def splitAtNl_shape : ∀ (buf : List Nat) {l r : List Nat},
    splitAtNl buf = some (l, r) → buf = l ++ 10 :: r
  | [], _, _, h => by simp [splitAtNl] at h
  | b :: rest, l, r, h => by
    by_cases hb : b = 10
    · simp only [splitAtNl, if_pos hb] at h
      obtain ⟨h1, h2⟩ := Prod.mk.injEq .. ▸ Option.some.injEq .. ▸ h
      subst hb; subst h1; subst h2; rfl
    · simp only [splitAtNl, if_neg hb] at h
      cases hr : splitAtNl rest with
      | none => rw [hr] at h; cases h
      | some p =>
        obtain ⟨l0, r0⟩ := p
        rw [hr] at h
        obtain ⟨h1, h2⟩ := Prod.mk.injEq .. ▸ Option.some.injEq .. ▸ h
        subst h1; subst h2
        simpa using splitAtNl_shape rest hr

/-- Per-line outcome of the parse loop body: empty lines are skipped;
a line that deserializes yields `Ok`; a failing line yields `Err` only
when its first byte is the opening brace (`123`), and is silently
dropped otherwise. -/
def lineResult {M : Type} (f : List Nat → Option M) (line : List Nat) :
    Option (ParseResult M) :=
  if line = [] then none
  else
    match f line with
    | some m => some (.ok m)
    | none => if line.head? = some 123 then some (.err line) else none

/-- The `while let Some(newline_pos) = …` loop of `parse`: repeatedly
extract the first complete line from the buffer, collect its
`lineResult` (if any), and stop when no newline is left.  Returns the
collected results and the remaining buffer. -/
def processBuffer {M : Type} (f : List Nat → Option M) (buffer : List Nat) :
    List (ParseResult M) × List Nat :=
  match h : splitAtNl buffer with
  | none => ([], buffer)
  | some (line, rest) =>
    let res := processBuffer f rest
    (match lineResult f line with
     | some r => r :: res.1
     | none => res.1,
     res.2)
termination_by buffer.length
decreasing_by
  have := splitAtNl_shape buffer h
  subst this
  simp
  omega

/-- Tool state for parsing cargo JSON output: the buffer for incomplete
JSON lines. -/
structure CargoCheck where
  buffer : List Nat
  deriving DecidableEq

/-- Tool state for parsing cargo test (libtest) JSON output: the buffer
for incomplete JSON lines. -/
structure CargoLibtest where
  buffer : List Nat
  deriving DecidableEq

/-- `CargoCheck::parse`: append the new data to the buffer, then process
all complete lines.  `f` abstracts `serde_json::from_slice::<CargoMessage>`. -/
def CargoCheck.parse {M : Type} (f : List Nat → Option M) (s : CargoCheck)
    (buf : List Nat) : List (ParseResult M) × CargoCheck :=
  let r := processBuffer f (s.buffer ++ buf)
  (r.1, ⟨r.2⟩)

/-- `CargoLibtest::parse`: identical loop, with
`serde_json::from_slice::<LibTestMessage>` abstracted by `f`. -/
def CargoLibtest.parse {M : Type} (f : List Nat → Option M) (s : CargoLibtest)
    (buf : List Nat) : List (ParseResult M) × CargoLibtest :=
  let r := processBuffer f (s.buffer ++ buf)
  (r.1, ⟨r.2⟩)

/-- The complete (newline-terminated) lines of a byte stream, in order. -/
def linesOf (buf : List Nat) : List (List Nat) :=
  match h : splitAtNl buf with
  | none => []
  | some (line, rest) => line :: linesOf rest
termination_by buf.length
decreasing_by
  have := splitAtNl_shape buf h
  subst this
  simp
  omega

/-- The residue of a byte stream after removing all complete lines. -/
def restOf (buf : List Nat) : List Nat :=
  match h : splitAtNl buf with
  | none => buf
  | some (_, rest) => restOf rest
termination_by buf.length
decreasing_by
  have := splitAtNl_shape buf h
  subst this
  simp
  omega

/-- The suffix of a byte stream that follows its last line terminator
(the whole stream when it holds none). -/
def afterLastNl (buf : List Nat) : List Nat :=
  (buf.reverse.takeWhile (fun b => decide (b ≠ 10))).reverse

/-- Feeding a list of chunks sequentially to a freshly created
`CargoCheck`, concatenating the per-call result vectors. -/
def feedChunks {M : Type} (f : List Nat → Option M) (chunks : List (List Nat)) :
    List (ParseResult M) × CargoCheck :=
  chunks.foldl
    (fun acc c =>
      let r := acc.2.parse f c
      (acc.1 ++ r.1, r.2))
    ([], ⟨[]⟩)

/-! ## Tool detection (`Detect for CargoCheck`, `CargoLibtest::detect`, `tool::detect`) -/

/-- `BufRead::lines` line segmentation: the byte stream split at each
newline; a final fragment without a terminating newline is still
yielded; a stream ending with a newline yields no trailing empty line. -/
def sampleLines : List Nat → List (List Nat)
  | [] => []
  | b :: rest =>
    if b = 10 then [] :: sampleLines rest
    else
      match sampleLines rest with
      | [] => [[b]]
      | l :: ls => (b :: l) :: ls

/-- `BufRead::lines` strips a carriage return left at the end of a line
by a CRLF terminator. -/
def stripCR (line : List Nat) : List Nat :=
  if line.getLast? = some 13 then line.dropLast else line

/-- The lines yielded by `BufRead::lines`: every newline-terminated
line is stripped of a trailing carriage return; a final unterminated
fragment is yielded as read. -/
def strippedSampleLines (sample : List Nat) : List (List Nat) :=
  match (sampleLines sample).getLast? with
  | none => []
  | some last =>
    (sampleLines sample).dropLast.map stripCR
      ++ [if sample.getLast? = some 10 then stripCR last else last]

/-- A UTF-8 continuation byte (`0x80..=0xBF`). -/
def isUtf8Cont (b : Nat) : Bool := 128 ≤ b && b ≤ 191

/-- UTF-8 validity of a byte sequence, as checked by
`String::from_utf8` inside `BufRead::read_line` (standard UTF-8 DFA,
including the surrogate and overlong-encoding exclusions). -/
def utf8Valid : List Nat → Bool
  | [] => true
  | b :: t =>
    if b ≤ 127 then utf8Valid t
    else if 194 ≤ b && b ≤ 223 then
      match t with
      | b2 :: t2 => isUtf8Cont b2 && utf8Valid t2
      | [] => false
    else if 224 ≤ b && b ≤ 239 then
      match t with
      | b2 :: b3 :: t3 =>
        (if b = 224 then 160 ≤ b2 && b2 ≤ 191
         else if b = 237 then 128 ≤ b2 && b2 ≤ 159
         else isUtf8Cont b2) && isUtf8Cont b3 && utf8Valid t3
      | _ => false
    else if 240 ≤ b && b ≤ 244 then
      match t with
      | b2 :: b3 :: b4 :: t4 =>
        (if b = 240 then 144 ≤ b2 && b2 ≤ 191
         else if b = 244 then 128 ≤ b2 && b2 ≤ 143
         else isUtf8Cont b2) && isUtf8Cont b3 && isUtf8Cont b4 && utf8Valid t4
      | _ => false
    else false

/-- `u8::saturating_add(1)`. -/
def satAdd255 (n : Nat) : Nat := min (n + 1) 255

/-- The successfully decoded line prefix that `CargoCheck::detect`
actually counts: `sample.lines().map_while(Result::ok)` stops at the
first line that is not valid UTF-8. -/
def countedLines (sample : List Nat) : List (List Nat) :=
  (strippedSampleLines sample).takeWhile utf8Valid

/-- `impl Detect for CargoCheck`: fold `(oks, errs)` over the decoded
line prefix with `u8` saturating counters (`g` abstracts
`serde_json::from_str::<CargoMessage>` succeeding), and return a fresh
tool when `oks > errs`. -/
def CargoCheck.detect (g : List Nat → Bool) (sample : List Nat) : Option CargoCheck :=
  let oe := (countedLines sample).foldl
    (fun (oe : Nat × Nat) line =>
      if g line then (satAdd255 oe.1, oe.2) else (oe.1, satAdd255 oe.2))
    (0, 0)
  if oe.2 < oe.1 then some ⟨[]⟩ else none

/-- The detection acceptance predicate as the specification words it:
a strict majority of the successfully delimited (UTF-8-decodable) lines
of the sample deserialize, an exact tie or minority failing to detect. -/
def specDetectAccepts (g : List Nat → Bool) (sample : List Nat) : Bool :=
  let delimited := (strippedSampleLines sample).filter utf8Valid
  decide (2 * delimited.countP g > delimited.length)

/-- `slice::windows(n)`: all contiguous windows of length `n` (empty for
a slice shorter than `n`; the `n = 0` case, a panic in the source, is
the empty list here and never used). -/
def windows {α : Type} (n : Nat) (l : List α) : List (List α) :=
  if n = 0 then []
  else if l.length < n then []
  else l.take n :: windows n l.tail
termination_by l.length
decreasing_by
  rename_i h0 hlen
  cases l with
  | nil => simp at hlen; omega
  | cons x xs => simp

/-- The seven bytes of `b"\x22type\x22:"` compared against each window. -/
def typeFieldPat : List Nat := [34, 116, 121, 112, 101, 34, 58]

/-- `CargoLibtest::detect`: look for the `type` field pattern in every
8-byte window of the sample. -/
def CargoLibtest.detect (sample : List Nat) : Bool :=
  (windows 8 sample).any (fun w => w == typeFieldPat)

/-- The tool selected by top-level detection. -/
inductive DetectedTool where
  | cargoCheck
  | cargoLibtest
  deriving DecidableEq

/-- `tool::Error`: errors of tool detection. -/
inductive ToolError where
  | noToolDetected
  deriving DecidableEq

/-- `tool::detect`: try `CargoCheck` first, then `CargoLibtest`; return
the first tool whose detector accepts, else the explicit
`NoToolDetected` error. -/
def detect (g : List Nat → Bool) (sample : List Nat) : Except ToolError DetectedTool :=
  match CargoCheck.detect g sample with
  | some _ => .ok .cargoCheck
  | none =>
    if CargoLibtest.detect sample then .ok .cargoLibtest
    else .error .noToolDetected

/-! ## GitHub Actions workflow command builders (`ci/github.rs`) -/

/-- Optional location and metadata of a file annotation (`error`,
`warning`, `notice`). -/
structure AnnotationParams where
  file : Option String
  line : Option Nat
  col : Option Nat
  end_line : Option Nat
  end_column : Option Nat
  title : Option String
  deriving DecidableEq

/-- `AnnotationParams::default()`: every field absent. -/
def AnnotationParams.empty : AnnotationParams :=
  ⟨none, none, none, none, none, none⟩

/-- The formatted parameters, in the fixed order written by the
`write_param!` invocations: file, line, col, endLine, endColumn, title. -/
def AnnotationParams.paramParts (p : AnnotationParams) : List (Option String) :=
  [p.file.map (fun v => "file=" ++ v),
   p.line.map (fun v => "line=" ++ toString v),
   p.col.map (fun v => "col=" ++ toString v),
   p.end_line.map (fun v => "endLine=" ++ toString v),
   p.end_column.map (fun v => "endColumn=" ++ toString v),
   p.title.map (fun v => "title=" ++ v)]

/-- `impl fmt::Display for AnnotationParams`: write each present
parameter, preceded by a comma exactly when some parameter was already
written (`needs_separator`). -/
def AnnotationParams.render (p : AnnotationParams) : String :=
  (p.paramParts.foldl
    (fun (acc : String × Bool) v =>
      match v with
      | some s => (acc.1 ++ (if acc.2 then "," else "") ++ s, true)
      | none => acc)
    ("", false)).1

/-- `GitHub::debug`. -/
def GitHub.debug (message : String) : String :=
  "::debug::" ++ message ++ "\n"

/-- `GitHub::notice` (builder finished with `.format()`). -/
def GitHub.notice (message : String) (params : AnnotationParams) : String :=
  "::notice " ++ params.render ++ "::" ++ message ++ "\n"

/-- `GitHub::warning` (builder finished with `.format()`). -/
def GitHub.warning (message : String) (params : AnnotationParams) : String :=
  "::warning " ++ params.render ++ "::" ++ message ++ "\n"

/-- `GitHub::error` (builder finished with `.format()`). -/
def GitHub.error (message : String) (params : AnnotationParams) : String :=
  "::error " ++ params.render ++ "::" ++ message ++ "\n"

/-- `GitHub::group`. -/
def GitHub.group (title : String) : String :=
  "::group::" ++ title ++ "\n"

/-- `GitHub::endgroup`. -/
def GitHub.endgroup : String :=
  "::endgroup::\n"

/-- `GitHub::add_mask`. -/
def GitHub.add_mask (value : String) : String :=
  "::add-mask::" ++ value ++ "\n"

/-- `GitHub::stop_commands`. -/
def GitHub.stop_commands (token : String) : String :=
  "::stop-commands::" ++ token ++ "\n"

/-- `GitHub::resume_commands`. -/
def GitHub.resume_commands (token : String) : String :=
  "::" ++ token ++ "::\n"

/-- `GitHub::echo`. -/
def GitHub.echo (enable : Bool) : String :=
  "::echo::" ++ (if enable then "on" else "off") ++ "\n"

/-- The no-parameter annotation shape the specification claims: when no
parameter is present, the bracketed parameter part including its
leading space is absent. -/
def specAnnotationNoParams (command text : String) : String :=
  "::" ++ command ++ "::" ++ text ++ "\n"

/-! ## The `Diagnostic` taxonomy and its GitHub rendering -/

/-- `DiagnosticLevel`: severity of a rustc diagnostic. -/
inductive DiagnosticLevel where
  | error
  | warning
  | note
  | help
  | failureNote
  | internalCompilerError
  deriving DecidableEq

/-- `impl Display for DiagnosticLevel`. -/
def DiagnosticLevel.display : DiagnosticLevel → String
  | .error => "error"
  | .warning => "warning"
  | .note => "note"
  | .help => "help"
  | .failureNote => "failure-note"
  | .internalCompilerError => "error: internal compiler error"

/-- `DiagnosticCode`: the code identifying the diagnostic and its
optional explanation. -/
structure DiagnosticCode where
  code : String
  explanation : Option String
  deriving DecidableEq

/-- `SuggestionApplicability` of a suggested replacement. -/
inductive SuggestionApplicability where
  | machineApplicable
  | maybeIncorrect
  | hasPlaceholders
  | unspecified
  deriving DecidableEq

/-- `DiagnosticSpanLine`: one line of source text in a span. -/
structure DiagnosticSpanLine where
  text : String
  highlight_start : Nat
  highlight_end : Nat
  deriving DecidableEq

mutual

/-- `DiagnosticSpan`: source location of a diagnostic, with an optional
(heap-indirected in the source) nested macro-expansion span. -/
inductive DiagnosticSpan where
  | mk (file_name : String) (byte_start : Nat) (byte_end : Nat)
      (line_start : Nat) (line_end : Nat) (column_start : Nat) (column_end : Nat)
      (is_primary : Bool) (text : List DiagnosticSpanLine)
      (label : Option String) (suggested_replacement : Option String)
      (suggestion_applicability : Option SuggestionApplicability)
      (expansion : Option DiagnosticSpanMacroExpansion)

/-- `DiagnosticSpanMacroExpansion`: the invocation span, the macro
name, and the optional definition-site span. -/
inductive DiagnosticSpanMacroExpansion where
  | mk (span : DiagnosticSpan) (macro_decl_name : String)
      (def_site_span : Option DiagnosticSpan)

end

/-- Field accessor. -/
def DiagnosticSpan.file_name : DiagnosticSpan → String
  | .mk v _ _ _ _ _ _ _ _ _ _ _ _ => v

/-- Field accessor. -/
def DiagnosticSpan.line_start : DiagnosticSpan → Nat
  | .mk _ _ _ v _ _ _ _ _ _ _ _ _ => v

/-- Field accessor. -/
def DiagnosticSpan.line_end : DiagnosticSpan → Nat
  | .mk _ _ _ _ v _ _ _ _ _ _ _ _ => v

/-- Field accessor. -/
def DiagnosticSpan.column_start : DiagnosticSpan → Nat
  | .mk _ _ _ _ _ v _ _ _ _ _ _ _ => v

/-- Field accessor. -/
def DiagnosticSpan.column_end : DiagnosticSpan → Nat
  | .mk _ _ _ _ _ _ v _ _ _ _ _ _ => v

/-- Field accessor. -/
def DiagnosticSpan.is_primary : DiagnosticSpan → Bool
  | .mk _ _ _ _ _ _ _ v _ _ _ _ _ => v

/-- `Diagnostic`: a compiler diagnostic with recursively nested child
diagnostics. -/
inductive Diagnostic where
  | mk (message : String) (code : Option DiagnosticCode) (level : DiagnosticLevel)
      (spans : List DiagnosticSpan) (children : List Diagnostic)
      (rendered : Option String)

mutual

/-- `impl CiMessage<GitHub> for Diagnostic`: select the annotation
severity from the level, attach the first span flagged primary (or
none) as location metadata, title the annotation with the level (and
the code, for error/warning levels), then append the renderings of the
children. -/
def Diagnostic.formatGitHub : Diagnostic → String
  | .mk message code level spans children _ =>
    let primary_span := spans.find? (fun s => s.is_primary)
    let head :=
      match level with
      | .error | .internalCompilerError =>
        let title :=
          match code with
          | some c => level.display ++ ": " ++ c.code
          | none => level.display
        match primary_span with
        | some s =>
          GitHub.error message
            ⟨some s.file_name, some s.line_start, some s.column_start,
             some s.line_end, some s.column_end, some title⟩
        | none => GitHub.error message ⟨none, none, none, none, none, some title⟩
      | .warning =>
        let title :=
          match code with
          | some c => level.display ++ ": " ++ c.code
          | none => level.display
        match primary_span with
        | some s =>
          GitHub.warning message
            ⟨some s.file_name, some s.line_start, some s.column_start,
             some s.line_end, some s.column_end, some title⟩
        | none => GitHub.warning message ⟨none, none, none, none, none, some title⟩
      | .note | .help | .failureNote =>
        match primary_span with
        | some s =>
          GitHub.notice message
            ⟨some s.file_name, some s.line_start, some s.column_start,
             none, none, some level.display⟩
        | none => GitHub.notice message ⟨none, none, none, none, none, some level.display⟩
    head ++ Diagnostic.formatGitHubList children

/-- Concatenated renderings of child diagnostics, in declaration
order. -/
def Diagnostic.formatGitHubList : List Diagnostic → String
  | [] => ""
  | d :: ds => d.formatGitHub ++ Diagnostic.formatGitHubList ds

end

/-! ## libtest suite and test messages, and their GitHub rendering -/

/-- Model of Rust's `{:.2}` fixed-point formatting of an `f64` (the
`f64` value itself modelled as an exact rational): round to two decimal
places, half to even, and print with exactly two fraction digits. -/
def fmt2 (q : ℚ) : String :=
  let scaled : ℚ := q * 100
  let fl : Int := scaled.num.fdiv scaled.den
  let frac : ℚ := scaled - (fl : ℚ)
  let n : Int :=
    if 1 / 2 < frac then fl + 1
    else if frac < 1 / 2 then fl
    else if fl % 2 = 0 then fl else fl + 1
  let a : Nat := n.natAbs
  (if n < 0 then "-" else "")
    ++ toString (a / 100) ++ "."
    ++ (if a % 100 < 10 then "0" else "") ++ toString (a % 100)

/-- `SuiteMessage`: suite-level libtest events. -/
inductive SuiteMessage where
  | discovery
  | completed (tests : Nat) (benchmarks : Nat) (total : Nat) (ignored : Nat)
  | started (test_count : Nat) (shuffle_seed : Option Nat)
  | ok (passed : Nat) (failed : Nat) (ignored : Nat) (measured : Nat)
      (filtered_out : Nat) (exec_time : Option ℚ)
  | failed (passed : Nat) (failed : Nat) (ignored : Nat) (measured : Nat)
      (filtered_out : Nat) (exec_time : Option ℚ)
  deriving DecidableEq

/-- `impl CiMessage<GitHub> for SuiteMessage`. -/
def SuiteMessage.formatGitHub : SuiteMessage → String
  | .discovery => GitHub.group "Test Discovery"
  | .completed tests benchmarks total ignored =>
    GitHub.endgroup
      ++ GitHub.notice
        ("Discovered " ++ toString total ++ " items: " ++ toString tests
          ++ " tests, " ++ toString benchmarks ++ " benchmarks, "
          ++ toString ignored ++ " ignored")
        ⟨none, none, none, none, none, some "Test Discovery"⟩
  | .started test_count _ =>
    GitHub.notice ("Running " ++ toString test_count ++ " tests")
      ⟨none, none, none, none, none, some "Test Suite Started"⟩
  | .failed np nf ni nm nfo exec_time =>
    GitHub.error
      (toString nf ++ " failed, " ++ toString np ++ " passed, "
        ++ toString ni ++ " ignored, " ++ toString nm ++ " measured, "
        ++ toString nfo ++ " filtered out"
        ++ (match exec_time with
            | some t => " in " ++ fmt2 t ++ "s"
            | none => ""))
      ⟨none, none, none, none, none, some "Test Suite Failed"⟩
  | .ok np nf ni nm nfo exec_time =>
    GitHub.notice
      (toString np ++ " passed, " ++ toString nf ++ " failed, "
        ++ toString ni ++ " ignored, " ++ toString nm ++ " measured, "
        ++ toString nfo ++ " filtered out"
        ++ (match exec_time with
            | some t => " in " ++ fmt2 t ++ "s"
            | none => ""))
      ⟨none, none, none, none, none, some "Test Suite Passed"⟩

/-- One escaped character of Rust's `{:?}` string formatting (the
common escapes; other characters print as themselves). -/
def rustEscapeChar (c : Char) : String :=
  if c = '\\' then "\\\\"
  else if c = '"' then "\\\""
  else if c = '\n' then "\\n"
  else if c = '\t' then "\\t"
  else if c = '\r' then "\\r"
  else String.singleton c

/-- Rust `{:?}` formatting of a `String`. -/
def rustDebugString (s : String) : String :=
  "\"" ++ String.join (s.data.map rustEscapeChar) ++ "\""

/-- Rust `{:?}` formatting of an `Option<String>`. -/
def rustDebugOptString : Option String → String
  | none => "None"
  | some s => "Some(" ++ rustDebugString s ++ ")"

/-- `TestMessage`: per-test libtest events. -/
inductive TestMessage where
  | discovered (name : String) (ignore : Bool) (ignore_message : Option String)
      (source_path : String) (start_line : Nat) (start_col : Nat)
      (end_line : Nat) (end_col : Nat)
  | started (name : String)
  | ok (name : String) (exec_time : Option ℚ) (stdout : Option String)
  | failed (name : String) (exec_time : Option ℚ) (stdout : Option String)
      (message : Option String)
  | timeout (name : String)
  | ignored (name : String) (message : Option String)
  deriving DecidableEq

/-- `impl CiMessage<GitHub> for TestMessage`. -/
def TestMessage.formatGitHub : TestMessage → String
  | .discovered name ignore ignore_message source_path start_line start_col end_line end_col =>
    GitHub.debug
      ("Discovered test: " ++ name ++ " (ignored: "
        ++ (if ignore then "true" else "false")
        ++ ", message: " ++ rustDebugOptString ignore_message
        ++ ", location: " ++ source_path ++ ":" ++ toString start_line ++ ":"
        ++ toString start_col ++ "-" ++ toString end_line ++ ":"
        ++ toString end_col ++ ")")
  | .started name => GitHub.group ("Test: " ++ name)
  | .ok name exec_time stdout =>
    (match stdout with
     | some v => if v = "" then "" else v ++ "\n"
     | none => "")
      ++ GitHub.notice
        (match exec_time with
         | some t => "Executed in " ++ fmt2 t ++ "s"
         | none => "")
        ⟨none, none, none, none, none, some ("Test Passed: " ++ name)⟩
      ++ GitHub.endgroup
  | .failed name exec_time stdout message =>
    (match stdout with
     | some v => if v = "" then "" else v ++ "\n"
     | none => "")
      ++ GitHub.endgroup
      ++ GitHub.notice (message.getD "")
        ⟨none, none, none, none, none,
         some ("Test Failed: " ++ name
           ++ (match exec_time with
               | some t => " (executed in " ++ fmt2 t ++ "s)"
               | none => ""))⟩
  | .timeout name =>
    GitHub.endgroup
      ++ GitHub.error name ⟨none, none, none, none, none, some "Test Timeout"⟩
  | .ignored name message =>
    GitHub.notice
      (match message with
       | some s => if s = "" then "" else s.replace "\n" " "
       | none => "")
      ⟨none, none, none, none, none, some ("Test Ignored: " ++ name)⟩



/-! ## The JSON wire model and the serde-derived codec -/

/-- JSON wire values (`serde_json::Value`), with numbers as exact
rationals. -/
inductive Json where
  | null : Json
  | bool (b : Bool) : Json
  | num (q : ℚ) : Json
  | str (s : String) : Json
  | arr (xs : List Json) : Json
  | obj (fields : List (String × Json)) : Json

/-- Looking a field up by name in a JSON object's field list (first
occurrence wins). -/
def jlookup (fs : List (String × Json)) (k : String) : Option Json :=
  List.lookup k fs

/-- A field looked up in an object is a smaller JSON value. -/
def sizeOf_jlookup : ∀ {fs : List (String × Json)} {k : String} {v : Json},
    jlookup fs k = some v → sizeOf v < sizeOf (Json.obj fs) := by
  intro fs k v h
  simp only [jlookup] at h
  induction fs with
  | nil => simp [List.lookup] at h
  | cons p fs ih =>
    obtain ⟨a, b⟩ := p
    rw [List.lookup] at h
    by_cases hk : k = a
    · simp [hk] at h
      subst h
      simp
      omega
    · have hb : (k == a) = false := beq_eq_false_iff_ne.mpr hk
      rw [hb] at h
      have := ih h
      simp at this ⊢
      omega

/-- Whether a JSON value is null. -/
def Json.isNull : Json → Bool
  | .null => true
  | _ => false

/-- Deserializing a JSON string. -/
def jStr : Json → Option String
  | .str s => some s
  | _ => none

/-- Deserializing a JSON boolean. -/
def jBool : Json → Option Bool
  | .bool b => some b
  | _ => none

/-- Deserializing an unsigned integer (`usize`/`u32`/`u64`): the number
must be integral and non-negative (the width range checks are
immaterial to the properties proved here and omitted). -/
def jNat : Json → Option Nat
  | .num q => if q.den = 1 ∧ 0 ≤ q.num then some q.num.toNat else none
  | _ => none

/-- Deserializing an `f64` (modelled as an exact rational). -/
def jRat : Json → Option ℚ
  | .num q => some q
  | _ => none

/-- Deserializing a JSON array elementwise. -/
def jArr {α : Type} (dec : Json → Option α) : Json → Option (List α)
  | .arr xs => xs.mapM dec
  | _ => none

/-- Deserializing a two-element tuple (a `(String, String)` pair is a
two-element JSON array). -/
def jPairStr : Json → Option (String × String)
  | .arr [a, b] =>
    match jStr a, jStr b with
    | some x, some y => some (x, y)
    | _, _ => none
  | _ => none

/-- A required struct field: absent, null or mistyped fails. -/
def getReq {α : Type} (fs : List (String × Json)) (k : String)
    (dec : Json → Option α) : Option α :=
  (jlookup fs k).bind dec

/-- An `Option` struct field: a missing or null field is `none`; a
present field must deserialize. -/
def getOpt {α : Type} (fs : List (String × Json)) (k : String)
    (dec : Json → Option α) : Option (Option α) :=
  match jlookup fs k with
  | none => some none
  | some j => if j.isNull then some none else (dec j).map some

/-- Serializing an `Option` field that is not skipped when absent
(`None` becomes null). -/
def encOpt {α : Type} (enc : α → Json) : Option α → Json
  | none => .null
  | some a => enc a

/-- Serializing an `Option` field marked `skip_serializing_if =
"Option::is_none"`: the field is omitted entirely when `None`. -/
def optField {α : Type} (k : String) (enc : α → Json) : Option α → List (String × Json)
  | none => []
  | some a => [(k, enc a)]

/-- Wire encoding of `DiagnosticLevel` (serde rename values). -/
def encodeDiagnosticLevel : DiagnosticLevel → Json
  | .error => .str "error"
  | .warning => .str "warning"
  | .note => .str "note"
  | .help => .str "help"
  | .failureNote => .str "failure-note"
  | .internalCompilerError => .str "error: internal compiler error"

/-- Wire decoding of `DiagnosticLevel`. -/
def decodeDiagnosticLevel : Json → Option DiagnosticLevel
  | .str "error" => some .error
  | .str "warning" => some .warning
  | .str "note" => some .note
  | .str "help" => some .help
  | .str "failure-note" => some .failureNote
  | .str "error: internal compiler error" => some .internalCompilerError
  | _ => none

/-- Wire encoding of `SuggestionApplicability` (no rename: the variant
names themselves). -/
def encodeSuggestionApplicability : SuggestionApplicability → Json
  | .machineApplicable => .str "MachineApplicable"
  | .maybeIncorrect => .str "MaybeIncorrect"
  | .hasPlaceholders => .str "HasPlaceholders"
  | .unspecified => .str "Unspecified"

/-- Wire decoding of `SuggestionApplicability`. -/
def decodeSuggestionApplicability : Json → Option SuggestionApplicability
  | .str "MachineApplicable" => some .machineApplicable
  | .str "MaybeIncorrect" => some .maybeIncorrect
  | .str "HasPlaceholders" => some .hasPlaceholders
  | .str "Unspecified" => some .unspecified
  | _ => none

/-- Wire encoding of `DiagnosticCode`. -/
def encodeDiagnosticCode (c : DiagnosticCode) : Json :=
  .obj [("code", .str c.code), ("explanation", encOpt .str c.explanation)]

/-- Wire decoding of `DiagnosticCode`. -/
def decodeDiagnosticCode : Json → Option DiagnosticCode
  | .obj fs => do
    let code ← getReq fs "code" jStr
    let explanation ← getOpt fs "explanation" jStr
    some ⟨code, explanation⟩
  | _ => none

/-- Wire encoding of `DiagnosticSpanLine`. -/
def encodeDiagnosticSpanLine (l : DiagnosticSpanLine) : Json :=
  .obj [("text", .str l.text), ("highlight_start", .num l.highlight_start),
        ("highlight_end", .num l.highlight_end)]

/-- Wire decoding of `DiagnosticSpanLine`. -/
def decodeDiagnosticSpanLine : Json → Option DiagnosticSpanLine
  | .obj fs => do
    let text ← getReq fs "text" jStr
    let hs ← getReq fs "highlight_start" jNat
    let he ← getReq fs "highlight_end" jNat
    some ⟨text, hs, he⟩
  | _ => none

mutual

/-- Wire encoding of `DiagnosticSpan` (fields in declaration order;
`Option` fields serialize `None` as null, the boxed expansion
transparently). -/
def encodeDiagnosticSpan : DiagnosticSpan → Json
  | .mk file_name byte_start byte_end line_start line_end column_start column_end
      is_primary text label suggested_replacement suggestion_applicability expansion =>
    .obj [("file_name", .str file_name), ("byte_start", .num byte_start),
          ("byte_end", .num byte_end), ("line_start", .num line_start),
          ("line_end", .num line_end), ("column_start", .num column_start),
          ("column_end", .num column_end), ("is_primary", .bool is_primary),
          ("text", .arr (text.map encodeDiagnosticSpanLine)),
          ("label", encOpt .str label),
          ("suggested_replacement", encOpt .str suggested_replacement),
          ("suggestion_applicability",
            encOpt encodeSuggestionApplicability suggestion_applicability),
          ("expansion", encodeExpansionOpt expansion)]

/-- The optional nested expansion (`None` as null). -/
def encodeExpansionOpt : Option DiagnosticSpanMacroExpansion → Json
  | none => .null
  | some e => encodeDiagnosticSpanMacroExpansion e

/-- Wire encoding of `DiagnosticSpanMacroExpansion`. -/
def encodeDiagnosticSpanMacroExpansion : DiagnosticSpanMacroExpansion → Json
  | .mk span decl_name def_site_span =>
    .obj [("span", encodeDiagnosticSpan span),
          ("macro_decl_name", .str decl_name),
          ("def_site_span", encodeSpanOpt def_site_span)]

/-- The optional definition-site span (`None` as null). -/
def encodeSpanOpt : Option DiagnosticSpan → Json
  | none => .null
  | some s => encodeDiagnosticSpan s

end

mutual

/-- Wire decoding of `DiagnosticSpan`. -/
def decodeDiagnosticSpan : Json → Option DiagnosticSpan
  | .obj fs => do
    let file_name ← getReq fs "file_name" jStr
    let byte_start ← getReq fs "byte_start" jNat
    let byte_end ← getReq fs "byte_end" jNat
    let line_start ← getReq fs "line_start" jNat
    let line_end ← getReq fs "line_end" jNat
    let column_start ← getReq fs "column_start" jNat
    let column_end ← getReq fs "column_end" jNat
    let is_primary ← getReq fs "is_primary" jBool
    let text ← getReq fs "text" (jArr decodeDiagnosticSpanLine)
    let label ← getOpt fs "label" jStr
    let suggested_replacement ← getOpt fs "suggested_replacement" jStr
    let suggestion_applicability ←
      getOpt fs "suggestion_applicability" decodeSuggestionApplicability
    let expansion ←
      match hexp : jlookup fs "expansion" with
      | none => some none
      | some j =>
        if j.isNull then some none
        else (decodeDiagnosticSpanMacroExpansion j).map some
    some (.mk file_name byte_start byte_end line_start line_end column_start
      column_end is_primary text label suggested_replacement
      suggestion_applicability expansion)
  | _ => none
termination_by j => sizeOf j
decreasing_by
  have := sizeOf_jlookup hexp
  simp at this ⊢
  omega

/-- Wire decoding of `DiagnosticSpanMacroExpansion`. -/
def decodeDiagnosticSpanMacroExpansion : Json → Option DiagnosticSpanMacroExpansion
  | .obj fs => do
    let span ←
      match hspan : jlookup fs "span" with
      | some j => decodeDiagnosticSpan j
      | none => none
    let decl_name ← getReq fs "macro_decl_name" jStr
    let def_site_span ←
      match hdss : jlookup fs "def_site_span" with
      | none => some none
      | some j =>
        if j.isNull then some none
        else (decodeDiagnosticSpan j).map some
    some (.mk span decl_name def_site_span)
  | _ => none
termination_by j => sizeOf j
decreasing_by
  all_goals first
    | (have hs2 := sizeOf_jlookup hspan
       simp at hs2 ⊢
       omega)
    | (have hs3 := sizeOf_jlookup hdss
       simp at hs3 ⊢
       omega)

end

mutual

/-- The wire field list of a `Diagnostic` (fields in declaration
order). -/
def diagnosticFields : Diagnostic → List (String × Json)
  | .mk message code level spans children rendered =>
    [("message", .str message), ("code", encOpt encodeDiagnosticCode code),
     ("level", encodeDiagnosticLevel level),
     ("spans", .arr (spans.map encodeDiagnosticSpan)),
     ("children", .arr (encodeDiagnosticList children)),
     ("rendered", encOpt .str rendered)]

/-- The wire encodings of a list of child diagnostics. -/
def encodeDiagnosticList : List Diagnostic → List Json
  | [] => []
  | d :: ds => .obj (diagnosticFields d) :: encodeDiagnosticList ds

end

/-- Wire encoding of `Diagnostic`. -/
def encodeDiagnostic (d : Diagnostic) : Json :=
  .obj (diagnosticFields d)

mutual

/-- Wire decoding of `Diagnostic`. -/
def decodeDiagnostic : Json → Option Diagnostic
  | .obj fs => do
    let message ← getReq fs "message" jStr
    let code ← getOpt fs "code" decodeDiagnosticCode
    let level ← getReq fs "level" decodeDiagnosticLevel
    let spans ← getReq fs "spans" (jArr decodeDiagnosticSpan)
    let children ←
      match hch : jlookup fs "children" with
      | some (.arr xs) => decodeDiagnosticList xs
      | _ => none
    let rendered ← getOpt fs "rendered" jStr
    some (.mk message code level spans children rendered)
  | _ => none
termination_by j => sizeOf j
decreasing_by
  have := sizeOf_jlookup hch
  simp at this ⊢
  omega

/-- Wire decoding of a list of child diagnostics. -/
def decodeDiagnosticList : List Json → Option (List Diagnostic)
  | [] => some []
  | j :: js => do
    let d ← decodeDiagnostic j
    let ds ← decodeDiagnosticList js
    some (d :: ds)
termination_by js => sizeOf js
decreasing_by
  all_goals first
    | (simp; omega)
    | simp

end


/-! ## The cargo-check message taxonomy and its codec -/

/-- `Target`: cargo target information. -/
structure Target where
  kind : List String
  crate_types : List String
  name : String
  src_path : String
  edition : String
  required_features : List String
  doc : Bool
  doctest : Bool
  test : Bool
  deriving DecidableEq

/-- Wire encoding of `Target` (`required_features` carries
`default, skip_serializing_if = "Vec::is_empty"`, so an empty vector is
omitted). -/
def encodeTarget (t : Target) : Json :=
  .obj ([("kind", .arr (t.kind.map .str)),
         ("crate_types", .arr (t.crate_types.map .str)),
         ("name", .str t.name), ("src_path", .str t.src_path),
         ("edition", .str t.edition)]
    ++ (if t.required_features = [] then []
        else [("required_features", .arr (t.required_features.map .str))])
    ++ [("doc", .bool t.doc), ("doctest", .bool t.doctest), ("test", .bool t.test)])

/-- Wire decoding of `Target` (`required_features` defaults to empty
when the field is missing). -/
def decodeTarget : Json → Option Target
  | .obj fs => do
    let kind ← getReq fs "kind" (jArr jStr)
    let crate_types ← getReq fs "crate_types" (jArr jStr)
    let name ← getReq fs "name" jStr
    let src_path ← getReq fs "src_path" jStr
    let edition ← getReq fs "edition" jStr
    let required_features ←
      match jlookup fs "required_features" with
      | none => some []
      | some j => jArr jStr j
    let doc ← getReq fs "doc" jBool
    let doctest ← getReq fs "doctest" jBool
    let test ← getReq fs "test" jBool
    some ⟨kind, crate_types, name, src_path, edition, required_features, doc, doctest, test⟩
  | _ => none

/-- `EmitKind` of an artifact notification. -/
inductive EmitKind where
  | link
  | depInfo
  | metadata
  | asm
  | llvmIr
  | llvmBc
  | mir
  | obj
  deriving DecidableEq

/-- Wire encoding of `EmitKind` (kebab-case renames). -/
def encodeEmitKind : EmitKind → Json
  | .link => .str "link"
  | .depInfo => .str "dep-info"
  | .metadata => .str "metadata"
  | .asm => .str "asm"
  | .llvmIr => .str "llvm-ir"
  | .llvmBc => .str "llvm-bc"
  | .mir => .str "mir"
  | .obj => .str "obj"

/-- Wire decoding of `EmitKind`. -/
def decodeEmitKind : Json → Option EmitKind
  | .str "link" => some .link
  | .str "dep-info" => some .depInfo
  | .str "metadata" => some .metadata
  | .str "asm" => some .asm
  | .str "llvm-ir" => some .llvmIr
  | .str "llvm-bc" => some .llvmBc
  | .str "mir" => some .mir
  | .str "obj" => some .obj
  | _ => none

/-- `Artifact`: a rustc artifact notification. -/
structure Artifact where
  artifact : String
  emit : EmitKind
  deriving DecidableEq

/-- The wire field list of an `Artifact`. -/
def artifactFields (a : Artifact) : List (String × Json) :=
  [("artifact", .str a.artifact), ("emit", encodeEmitKind a.emit)]

/-- Wire decoding of `Artifact`. -/
def decodeArtifact : Json → Option Artifact
  | .obj fs => do
    let artifact ← getReq fs "artifact" jStr
    let emit ← getReq fs "emit" decodeEmitKind
    some ⟨artifact, emit⟩
  | _ => none

/-- `FutureIncompatEntry`: one entry of a future-incompatibility
report. -/
structure FutureIncompatEntry where
  diagnostic : Diagnostic

/-- Wire encoding of `FutureIncompatEntry`. -/
def encodeFutureIncompatEntry (e : FutureIncompatEntry) : Json :=
  .obj [("diagnostic", encodeDiagnostic e.diagnostic)]

/-- Wire decoding of `FutureIncompatEntry`. -/
def decodeFutureIncompatEntry : Json → Option FutureIncompatEntry
  | .obj fs => do
    let d ← getReq fs "diagnostic" decodeDiagnostic
    some ⟨d⟩
  | _ => none

/-- `FutureIncompat`: the future-incompatibility report. -/
structure FutureIncompat where
  future_incompat_report : List FutureIncompatEntry

/-- The wire field list of a `FutureIncompat`. -/
def futureIncompatFields (f : FutureIncompat) : List (String × Json) :=
  [("future_incompat_report",
    .arr (f.future_incompat_report.map encodeFutureIncompatEntry))]

/-- Wire decoding of `FutureIncompat`. -/
def decodeFutureIncompat : Json → Option FutureIncompat
  | .obj fs => do
    let r ← getReq fs "future_incompat_report" (jArr decodeFutureIncompatEntry)
    some ⟨r⟩
  | _ => none

/-- `UnusedExterns`: the unused extern crates report. -/
structure UnusedExterns where
  lint_level : String
  unused_names : List String
  deriving DecidableEq

/-- The wire field list of an `UnusedExterns`. -/
def unusedExternsFields (u : UnusedExterns) : List (String × Json) :=
  [("lint_level", .str u.lint_level),
   ("unused_names", .arr (u.unused_names.map .str))]

/-- Wire decoding of `UnusedExterns`. -/
def decodeUnusedExterns : Json → Option UnusedExterns
  | .obj fs => do
    let l ← getReq fs "lint_level" jStr
    let names ← getReq fs "unused_names" (jArr jStr)
    some ⟨l, names⟩
  | _ => none

/-- `TimingEvent` of a compilation section. -/
inductive TimingEvent where
  | start
  | fin
  deriving DecidableEq

/-- Wire encoding of `TimingEvent` (lowercase renames; the `End`
variant is `fin` here since `end` is reserved). -/
def encodeTimingEvent : TimingEvent → Json
  | .start => .str "start"
  | .fin => .str "end"

/-- Wire decoding of `TimingEvent`. -/
def decodeTimingEvent : Json → Option TimingEvent
  | .str "start" => some .start
  | .str "end" => some .fin
  | _ => none

/-- `SectionTiming`: compilation section timing. -/
structure SectionTiming where
  event : TimingEvent
  name : String
  time : Nat
  deriving DecidableEq

/-- The wire field list of a `SectionTiming`. -/
def sectionTimingFields (s : SectionTiming) : List (String × Json) :=
  [("event", encodeTimingEvent s.event), ("name", .str s.name),
   ("time", .num s.time)]

/-- Wire decoding of `SectionTiming`. -/
def decodeSectionTiming : Json → Option SectionTiming
  | .obj fs => do
    let e ← getReq fs "event" decodeTimingEvent
    let n ← getReq fs "name" jStr
    let t ← getReq fs "time" jNat
    some ⟨e, n, t⟩
  | _ => none

/-- `RustcMessage`: the rustc JSON message variants, discriminated by
the `$message_type` field (snake_case renames). -/
inductive RustcMessage where
  | diagnostic (d : Diagnostic)
  | artifact (a : Artifact)
  | futureIncompat (f : FutureIncompat)
  | unusedExterns (u : UnusedExterns)
  | sectionTiming (s : SectionTiming)

/-- Wire encoding of `RustcMessage`: internally tagged with
`$message_type` alongside the variant's own fields. -/
def encodeRustcMessage : RustcMessage → Json
  | .diagnostic d => .obj (("$message_type", .str "diagnostic") :: diagnosticFields d)
  | .artifact a => .obj (("$message_type", .str "artifact") :: artifactFields a)
  | .futureIncompat f =>
    .obj (("$message_type", .str "future_incompat") :: futureIncompatFields f)
  | .unusedExterns u =>
    .obj (("$message_type", .str "unused_externs") :: unusedExternsFields u)
  | .sectionTiming s =>
    .obj (("$message_type", .str "section_timing") :: sectionTimingFields s)

/-- Wire decoding of `RustcMessage`: dispatch on `$message_type`, then
decode the variant from the same record. -/
def decodeRustcMessage : Json → Option RustcMessage
  | .obj fs =>
    match getReq fs "$message_type" jStr with
    | some "diagnostic" => (decodeDiagnostic (.obj fs)).map .diagnostic
    | some "artifact" => (decodeArtifact (.obj fs)).map .artifact
    | some "future_incompat" => (decodeFutureIncompat (.obj fs)).map .futureIncompat
    | some "unused_externs" => (decodeUnusedExterns (.obj fs)).map .unusedExterns
    | some "section_timing" => (decodeSectionTiming (.obj fs)).map .sectionTiming
    | _ => none
  | _ => none

/-- `CompilerMessage`: a rustc message with its package and target
metadata. -/
structure CompilerMessage where
  package_id : String
  manifest_path : String
  target : Target
  message : RustcMessage

/-- The wire field list of a `CompilerMessage`. -/
def compilerMessageFields (m : CompilerMessage) : List (String × Json) :=
  [("package_id", .str m.package_id), ("manifest_path", .str m.manifest_path),
   ("target", encodeTarget m.target), ("message", encodeRustcMessage m.message)]

/-- Wire decoding of `CompilerMessage`. -/
def decodeCompilerMessage : Json → Option CompilerMessage
  | .obj fs => do
    let p ← getReq fs "package_id" jStr
    let mp ← getReq fs "manifest_path" jStr
    let t ← getReq fs "target" decodeTarget
    let m ← getReq fs "message" decodeRustcMessage
    some ⟨p, mp, t, m⟩
  | _ => none

/-- Modelled from the spec: the source file
`crates/cifmt/src/tool/cargo_check/compiler_artifact.rs` is absent from
`src/` (only its module declaration, re-export and the `CargoMessage`
variant referring to it are present); the spec describes the variant
only as the "artifact produced by the build" record, so it is modelled
as the produced artifact's package id and target. -/
structure CompilerArtifact where
  package_id : String
  target : Target
  deriving DecidableEq

/-- The wire field list of a `CompilerArtifact` (spec-modelled, see
`CompilerArtifact`). -/
def compilerArtifactFields (m : CompilerArtifact) : List (String × Json) :=
  [("package_id", .str m.package_id), ("target", encodeTarget m.target)]

/-- Wire decoding of a `CompilerArtifact` (spec-modelled, see
`CompilerArtifact`). -/
def decodeCompilerArtifact : Json → Option CompilerArtifact
  | .obj fs => do
    let p ← getReq fs "package_id" jStr
    let t ← getReq fs "target" decodeTarget
    some ⟨p, t⟩
  | _ => none

/-- `BuildScriptExecuted`: a build script execution result. -/
structure BuildScriptExecuted where
  package_id : String
  linked_libs : List String
  linked_paths : List String
  cfgs : List String
  env : List (String × String)
  out_dir : String
  deriving DecidableEq

/-- The wire field list of a `BuildScriptExecuted` (the `env` pairs are
two-element arrays). -/
def buildScriptExecutedFields (m : BuildScriptExecuted) : List (String × Json) :=
  [("package_id", .str m.package_id),
   ("linked_libs", .arr (m.linked_libs.map .str)),
   ("linked_paths", .arr (m.linked_paths.map .str)),
   ("cfgs", .arr (m.cfgs.map .str)),
   ("env", .arr (m.env.map (fun p => .arr [.str p.1, .str p.2]))),
   ("out_dir", .str m.out_dir)]

/-- Wire decoding of a `BuildScriptExecuted`. -/
def decodeBuildScriptExecuted : Json → Option BuildScriptExecuted
  | .obj fs => do
    let p ← getReq fs "package_id" jStr
    let ll ← getReq fs "linked_libs" (jArr jStr)
    let lp ← getReq fs "linked_paths" (jArr jStr)
    let c ← getReq fs "cfgs" (jArr jStr)
    let e ← getReq fs "env" (jArr jPairStr)
    let o ← getReq fs "out_dir" jStr
    some ⟨p, ll, lp, c, e, o⟩
  | _ => none

/-- `BuildFinished`. -/
structure BuildFinished where
  success : Bool
  deriving DecidableEq

/-- The wire field list of a `BuildFinished`. -/
def buildFinishedFields (m : BuildFinished) : List (String × Json) :=
  [("success", .bool m.success)]

/-- Wire decoding of a `BuildFinished`. -/
def decodeBuildFinished : Json → Option BuildFinished
  | .obj fs => do
    let su ← getReq fs "success" jBool
    some ⟨su⟩
  | _ => none

/-- `CargoMessage`: the cargo JSON message variants, discriminated by
the `reason` field (kebab-case renames). -/
inductive CargoMessage where
  | compilerMessage (m : CompilerMessage)
  | compilerArtifact (m : CompilerArtifact)
  | buildScriptExecuted (m : BuildScriptExecuted)
  | buildFinished (m : BuildFinished)

/-- Wire encoding of `CargoMessage`: internally tagged with `reason`
alongside the variant's own fields. -/
def encodeCargoMessage : CargoMessage → Json
  | .compilerMessage m => .obj (("reason", .str "compiler-message") :: compilerMessageFields m)
  | .compilerArtifact m => .obj (("reason", .str "compiler-artifact") :: compilerArtifactFields m)
  | .buildScriptExecuted m =>
    .obj (("reason", .str "build-script-executed") :: buildScriptExecutedFields m)
  | .buildFinished m => .obj (("reason", .str "build-finished") :: buildFinishedFields m)

/-- Wire decoding of `CargoMessage`: dispatch on `reason`, then decode
the variant from the same record. -/
def decodeCargoMessage : Json → Option CargoMessage
  | .obj fs =>
    match getReq fs "reason" jStr with
    | some "compiler-message" => (decodeCompilerMessage (.obj fs)).map .compilerMessage
    | some "compiler-artifact" => (decodeCompilerArtifact (.obj fs)).map .compilerArtifact
    | some "build-script-executed" =>
      (decodeBuildScriptExecuted (.obj fs)).map .buildScriptExecuted
    | some "build-finished" => (decodeBuildFinished (.obj fs)).map .buildFinished
    | _ => none
  | _ => none

/-! ## The libtest message taxonomy codec -/

/-- The wire field list of a `SuiteMessage`: the `event` discriminant
(snake_case renames) and the variant's fields in declaration order
(`shuffle_seed` and `exec_time` omitted when absent). -/
def suiteMessageFields : SuiteMessage → List (String × Json)
  | .discovery => [("event", .str "discovery")]
  | .completed tests benchmarks total ignored =>
    [("event", .str "completed"), ("tests", .num tests),
     ("benchmarks", .num benchmarks), ("total", .num total),
     ("ignored", .num ignored)]
  | .started test_count shuffle_seed =>
    [("event", .str "started"), ("test_count", .num test_count)]
      ++ optField "shuffle_seed" (fun n => .num n) shuffle_seed
  | .ok np nf ni nm nfo exec_time =>
    [("event", .str "ok"), ("passed", .num np), ("failed", .num nf),
     ("ignored", .num ni), ("measured", .num nm), ("filtered_out", .num nfo)]
      ++ optField "exec_time" (fun q => .num q) exec_time
  | .failed np nf ni nm nfo exec_time =>
    [("event", .str "failed"), ("passed", .num np), ("failed", .num nf),
     ("ignored", .num ni), ("measured", .num nm), ("filtered_out", .num nfo)]
      ++ optField "exec_time" (fun q => .num q) exec_time

/-- Wire decoding of a `SuiteMessage`. -/
def decodeSuiteMessage : Json → Option SuiteMessage
  | .obj fs =>
    match getReq fs "event" jStr with
    | some "discovery" => some .discovery
    | some "completed" => do
      let t ← getReq fs "tests" jNat
      let b ← getReq fs "benchmarks" jNat
      let tot ← getReq fs "total" jNat
      let i ← getReq fs "ignored" jNat
      some (.completed t b tot i)
    | some "started" => do
      let tc ← getReq fs "test_count" jNat
      let ss ← getOpt fs "shuffle_seed" jNat
      some (.started tc ss)
    | some "ok" => do
      let np ← getReq fs "passed" jNat
      let nf ← getReq fs "failed" jNat
      let ni ← getReq fs "ignored" jNat
      let nm ← getReq fs "measured" jNat
      let nfo ← getReq fs "filtered_out" jNat
      let et ← getOpt fs "exec_time" jRat
      some (.ok np nf ni nm nfo et)
    | some "failed" => do
      let np ← getReq fs "passed" jNat
      let nf ← getReq fs "failed" jNat
      let ni ← getReq fs "ignored" jNat
      let nm ← getReq fs "measured" jNat
      let nfo ← getReq fs "filtered_out" jNat
      let et ← getOpt fs "exec_time" jRat
      some (.failed np nf ni nm nfo et)
    | _ => none
  | _ => none

/-- The wire field list of a `TestMessage`: the `event` discriminant
and the variant's fields in declaration order (skipped `Option` fields
omitted when absent). -/
def testMessageFields : TestMessage → List (String × Json)
  | .discovered name ignore ignore_message source_path start_line start_col end_line end_col =>
    [("event", .str "discovered"), ("name", .str name), ("ignore", .bool ignore)]
      ++ optField "ignore_message" .str ignore_message
      ++ [("source_path", .str source_path), ("start_line", .num start_line),
          ("start_col", .num start_col), ("end_line", .num end_line),
          ("end_col", .num end_col)]
  | .started name => [("event", .str "started"), ("name", .str name)]
  | .ok name exec_time stdout =>
    [("event", .str "ok"), ("name", .str name)]
      ++ optField "exec_time" (fun q => .num q) exec_time
      ++ optField "stdout" .str stdout
  | .failed name exec_time stdout message =>
    [("event", .str "failed"), ("name", .str name)]
      ++ optField "exec_time" (fun q => .num q) exec_time
      ++ optField "stdout" .str stdout
      ++ optField "message" .str message
  | .timeout name => [("event", .str "timeout"), ("name", .str name)]
  | .ignored name message =>
    [("event", .str "ignored"), ("name", .str name)]
      ++ optField "message" .str message

/-- Wire decoding of a `TestMessage`. -/
def decodeTestMessage : Json → Option TestMessage
  | .obj fs =>
    match getReq fs "event" jStr with
    | some "discovered" => do
      let name ← getReq fs "name" jStr
      let ig ← getReq fs "ignore" jBool
      let im ← getOpt fs "ignore_message" jStr
      let sp ← getReq fs "source_path" jStr
      let sl ← getReq fs "start_line" jNat
      let sc ← getReq fs "start_col" jNat
      let el ← getReq fs "end_line" jNat
      let ec ← getReq fs "end_col" jNat
      some (.discovered name ig im sp sl sc el ec)
    | some "started" => do
      let name ← getReq fs "name" jStr
      some (.started name)
    | some "ok" => do
      let name ← getReq fs "name" jStr
      let et ← getOpt fs "exec_time" jRat
      let so ← getOpt fs "stdout" jStr
      some (.ok name et so)
    | some "failed" => do
      let name ← getReq fs "name" jStr
      let et ← getOpt fs "exec_time" jRat
      let so ← getOpt fs "stdout" jStr
      let msg ← getOpt fs "message" jStr
      some (.failed name et so msg)
    | some "timeout" => do
      let name ← getReq fs "name" jStr
      some (.timeout name)
    | some "ignored" => do
      let name ← getReq fs "name" jStr
      let msg ← getOpt fs "message" jStr
      some (.ignored name msg)
    | _ => none
  | _ => none

/-- `BenchMessage`: a benchmark result. -/
structure BenchMessage where
  name : String
  median : Nat
  deviation : Nat
  mib_per_second : Option Nat
  deriving DecidableEq

/-- The wire field list of a `BenchMessage`. -/
def benchMessageFields (m : BenchMessage) : List (String × Json) :=
  [("name", .str m.name), ("median", .num m.median),
   ("deviation", .num m.deviation)]
    ++ optField "mib_per_second" (fun n => .num n) m.mib_per_second

/-- Wire decoding of a `BenchMessage`. -/
def decodeBenchMessage : Json → Option BenchMessage
  | .obj fs => do
    let name ← getReq fs "name" jStr
    let med ← getReq fs "median" jNat
    let dev ← getReq fs "deviation" jNat
    let mps ← getOpt fs "mib_per_second" jNat
    some ⟨name, med, dev, mps⟩
  | _ => none

/-- `ReportMessage`: a doctest timing report. -/
structure ReportMessage where
  total_time : ℚ
  compilation_time : ℚ
  deriving DecidableEq

/-- The wire field list of a `ReportMessage`. -/
def reportMessageFields (m : ReportMessage) : List (String × Json) :=
  [("total_time", .num m.total_time), ("compilation_time", .num m.compilation_time)]

/-- Wire decoding of a `ReportMessage`. -/
def decodeReportMessage : Json → Option ReportMessage
  | .obj fs => do
    let tt ← getReq fs "total_time" jRat
    let ct ← getReq fs "compilation_time" jRat
    some ⟨tt, ct⟩
  | _ => none

/-- `LibTestMessage`: the libtest message variants, discriminated by
the `type` field (snake_case renames). -/
inductive LibTestMessage where
  | suite (m : SuiteMessage)
  | test (m : TestMessage)
  | bench (m : BenchMessage)
  | report (m : ReportMessage)
  deriving DecidableEq

/-- Wire encoding of `LibTestMessage`: internally tagged with `type`
alongside the variant's own fields. -/
def encodeLibTestMessage : LibTestMessage → Json
  | .suite m => .obj (("type", .str "suite") :: suiteMessageFields m)
  | .test m => .obj (("type", .str "test") :: testMessageFields m)
  | .bench m => .obj (("type", .str "bench") :: benchMessageFields m)
  | .report m => .obj (("type", .str "report") :: reportMessageFields m)

/-- Wire decoding of `LibTestMessage`: dispatch on `type`, then decode
the variant from the same record. -/
def decodeLibTestMessage : Json → Option LibTestMessage
  | .obj fs =>
    match getReq fs "type" jStr with
    | some "suite" => (decodeSuiteMessage (.obj fs)).map .suite
    | some "test" => (decodeTestMessage (.obj fs)).map .test
    | some "bench" => (decodeBenchMessage (.obj fs)).map .bench
    | some "report" => (decodeReportMessage (.obj fs)).map .report
    | _ => none
  | _ => none

/-- Appending one extra field to the top-level record of a wire
value. -/
def addField : Json → String → Json → Json
  | .obj fs, k, v => .obj (fs ++ [(k, v)])
  | j, _, _ => j

/-- Every field name (and the discriminant) consulted at the top level
of a `CargoMessage` record. -/
def cargoTopLevelKeys : List String :=
  ["reason", "package_id", "manifest_path", "target", "message",
   "linked_libs", "linked_paths", "cfgs", "env", "out_dir", "success"]

/-- Every field name (and the discriminants) consulted at the top level
of a `LibTestMessage` record. -/
def libtestTopLevelKeys : List String :=
  ["type", "event", "tests", "benchmarks", "total", "ignored", "test_count",
   "shuffle_seed", "passed", "failed", "measured", "filtered_out", "exec_time",
   "name", "ignore", "ignore_message", "source_path", "start_line", "start_col",
   "end_line", "end_col", "stdout", "message", "median", "deviation",
   "mib_per_second", "total_time", "compilation_time"]

/-- The concrete diagnostic of the specification's rendering property:
level Warning, code "E001", one primary span at `a.rs` line 3 column 5
(ending at line 3 column 6), no children. -/
def warningDiagnosticE001 : Diagnostic :=
  .mk "unused variable" (some ⟨"E001", none⟩) .warning
    [.mk "a.rs" 50 51 3 3 5 6 true [] none none none none] [] none

end Cifmt

-- ===================== Theorems =====================

namespace Cifmt

theorem splitAtNl_eq_none {buf : List Nat} : splitAtNl buf = none ↔ 10 ∉ buf := by
  induction buf with
  | nil => simp [splitAtNl]
  | cons b rest ih =>
    by_cases hb : b = 10
    · subst hb
      simp [splitAtNl]
    · simp only [splitAtNl, if_neg hb]
      cases hr : splitAtNl rest with
      | none =>
        simp only [List.mem_cons]
        constructor
        · intro _
          rintro (h | h)
          · exact hb h.symm
          · exact (ih.mp hr) h
        · intro _
          trivial
      | some p =>
        obtain ⟨l, r⟩ := p
        simp only [List.mem_cons]
        constructor
        · intro h; cases h
        · intro h
          exfalso
          have : 10 ∉ rest := fun hm => h (Or.inr hm)
          rw [ih.mpr this] at hr
          cases hr

theorem splitAtNl_no_nl_line {buf l r : List Nat} (h : splitAtNl buf = some (l, r)) :
    10 ∉ l := by
  induction buf generalizing l r with
  | nil => simp [splitAtNl] at h
  | cons b rest ih =>
    by_cases hb : b = 10
    · simp only [splitAtNl, if_pos hb] at h
      obtain ⟨h1, _⟩ := Prod.mk.injEq .. ▸ Option.some.injEq .. ▸ h
      subst h1; simp
    · simp only [splitAtNl, if_neg hb] at h
      cases hr : splitAtNl rest with
      | none => rw [hr] at h; cases h
      | some p =>
        obtain ⟨l0, r0⟩ := p
        rw [hr] at h
        obtain ⟨h1, h2⟩ := Prod.mk.injEq .. ▸ Option.some.injEq .. ▸ h
        subst h1
        intro hm
        rcases List.mem_cons.mp hm with h10 | h10
        · exact hb h10.symm
        · exact ih hr h10

theorem splitAtNl_append_some {a : List Nat} {l r : List Nat} (b : List Nat)
    (h : splitAtNl a = some (l, r)) : splitAtNl (a ++ b) = some (l, r ++ b) := by
  induction a generalizing l r with
  | nil => simp [splitAtNl] at h
  | cons x rest ih =>
    by_cases hx : x = 10
    · simp only [splitAtNl, if_pos hx] at h
      obtain ⟨h1, h2⟩ := Prod.mk.injEq .. ▸ Option.some.injEq .. ▸ h
      subst h1; subst h2
      simp [splitAtNl, hx]
    · simp only [splitAtNl, if_neg hx] at h
      cases hr : splitAtNl rest with
      | none => rw [hr] at h; cases h
      | some p =>
        obtain ⟨l0, r0⟩ := p
        rw [hr] at h
        obtain ⟨h1, h2⟩ := Prod.mk.injEq .. ▸ Option.some.injEq .. ▸ h
        subst h1; subst h2
        simp only [List.cons_append, splitAtNl, if_neg hx, List.append_eq, ih hr]

theorem splitAtNl_append_no_nl {a : List Nat} (b : List Nat) (ha : 10 ∉ a) :
    splitAtNl (a ++ b) =
      match splitAtNl b with
      | none => none
      | some (l, r) => some (a ++ l, r) := by
  induction a with
  | nil =>
    cases hb : splitAtNl b with
    | none => simp [hb]
    | some p => obtain ⟨l, r⟩ := p; simp [hb]
  | cons x rest ih =>
    have hx : x ≠ 10 := fun h => ha (by simp [h])
    have hrest : 10 ∉ rest := fun h => ha (by simp [h])
    simp only [List.cons_append, splitAtNl, if_neg hx, List.append_eq, ih hrest]
    cases hb : splitAtNl b with
    | none => simp
    | some p => obtain ⟨l, r⟩ := p; simp

theorem processBuffer_of_none {M : Type} (f : List Nat → Option M) {buf : List Nat}
    (h : splitAtNl buf = none) : processBuffer f buf = ([], buf) := by
  rw [processBuffer]
  split
  · rfl
  · rename_i heq
    rw [h] at heq
    cases heq

theorem processBuffer_of_some {M : Type} (f : List Nat → Option M) {buf l r : List Nat}
    (h : splitAtNl buf = some (l, r)) :
    processBuffer f buf =
      (match lineResult f l with
       | some x => x :: (processBuffer f r).1
       | none => (processBuffer f r).1,
       (processBuffer f r).2) := by
  rw [processBuffer]
  split
  · rename_i heq
    rw [h] at heq
    cases heq
  · rename_i l0 r0 heq
    rw [h] at heq
    obtain ⟨h1, h2⟩ := Prod.mk.injEq .. ▸ Option.some.injEq .. ▸ heq
    subst h1; subst h2
    rfl

theorem linesOf_of_none {buf : List Nat} (h : splitAtNl buf = none) :
    linesOf buf = [] := by
  rw [linesOf]
  split
  · rfl
  · rename_i heq; rw [h] at heq; cases heq

theorem linesOf_of_some {buf l r : List Nat} (h : splitAtNl buf = some (l, r)) :
    linesOf buf = l :: linesOf r := by
  rw [linesOf]
  split
  · rename_i heq; rw [h] at heq; cases heq
  · rename_i l0 r0 heq
    rw [h] at heq
    obtain ⟨h1, h2⟩ := Prod.mk.injEq .. ▸ Option.some.injEq .. ▸ heq
    subst h1; subst h2; rfl

theorem restOf_of_none {buf : List Nat} (h : splitAtNl buf = none) :
    restOf buf = buf := by
  rw [restOf]
  split
  · rfl
  · rename_i heq; rw [h] at heq; cases heq

theorem restOf_of_some {buf l r : List Nat} (h : splitAtNl buf = some (l, r)) :
    restOf buf = restOf r := by
  rw [restOf]
  split
  · rename_i heq; rw [h] at heq; cases heq
  · rename_i l0 r0 heq
    rw [h] at heq
    obtain ⟨h1, h2⟩ := Prod.mk.injEq .. ▸ Option.some.injEq .. ▸ heq
    subst h2; rfl

/-- Induction along the line structure of a buffer: to prove `P buf` it
suffices to prove it assuming `P` for the remainder after the first
newline. -/
theorem splitAtNl_induction {P : List Nat → Prop}
    (step : ∀ buf, (∀ l r, splitAtNl buf = some (l, r) → P r) → P buf) :
    ∀ buf, P buf := by
  have key : ∀ (n : Nat) (buf : List Nat), buf.length ≤ n → P buf := by
    intro n
    induction n with
    | zero =>
      intro buf hb
      apply step
      intro l r hs
      have := splitAtNl_shape buf hs
      subst this
      simp at hb
    | succ n ih =>
      intro buf hb
      apply step
      intro l r hs
      have hshape := splitAtNl_shape buf hs
      apply ih
      subst hshape
      simp at hb
      omega
  intro buf
  exact key buf.length buf le_rfl

/-- The parse loop collects exactly the per-line results of the complete
lines, and leaves the residue in the buffer. -/
theorem processBuffer_eq {M : Type} (f : List Nat → Option M) (buf : List Nat) :
    processBuffer f buf = ((linesOf buf).filterMap (lineResult f), restOf buf) := by
  induction buf using splitAtNl_induction with
  | step buf ih =>
    cases h : splitAtNl buf with
    | none =>
      rw [processBuffer_of_none f h, linesOf_of_none h, restOf_of_none h]
      simp
    | some p =>
      obtain ⟨l, r⟩ := p
      rw [processBuffer_of_some f h, linesOf_of_some h, restOf_of_some h, ih l r h]
      cases hl : lineResult f l with
      | none => simp [List.filterMap_cons, hl]
      | some x => simp [List.filterMap_cons, hl]

theorem restOf_no_nl (buf : List Nat) : 10 ∉ restOf buf := by
  induction buf using splitAtNl_induction with
  | step buf ih =>
    cases h : splitAtNl buf with
    | none =>
      rw [restOf_of_none h]
      exact splitAtNl_eq_none.mp h
    | some p =>
      obtain ⟨l, r⟩ := p
      rw [restOf_of_some h]
      exact ih l r h

theorem takeWhile_append_stop {p : Nat → Bool} {y : Nat} (xs ys : List Nat)
    (hy : p y = false) :
    (xs ++ y :: ys).takeWhile p = xs.takeWhile p := by
  induction xs with
  | nil => simp [List.takeWhile, hy]
  | cons x xs ih =>
    cases hx : p x with
    | true => simp [List.takeWhile_cons, hx, ih]
    | false => simp [List.takeWhile_cons, hx]

theorem afterLastNl_of_no_nl {buf : List Nat} (h : 10 ∉ buf) :
    afterLastNl buf = buf := by
  unfold afterLastNl
  have : buf.reverse.takeWhile (fun b => decide (b ≠ 10)) = buf.reverse := by
    apply List.takeWhile_eq_self_iff.mpr
    intro x hx
    simp only [decide_eq_true_eq]
    intro hx10
    exact h (by rw [← hx10]; exact List.mem_reverse.mp hx)
  rw [this, List.reverse_reverse]

theorem afterLastNl_append_nl (l r : List Nat) :
    afterLastNl (l ++ 10 :: r) = afterLastNl r := by
  unfold afterLastNl
  have : (l ++ 10 :: r).reverse = r.reverse ++ 10 :: l.reverse := by
    simp
  rw [this, takeWhile_append_stop _ _ (by simp)]

theorem restOf_eq_afterLastNl (buf : List Nat) : restOf buf = afterLastNl buf := by
  induction buf using splitAtNl_induction with
  | step buf ih =>
    cases h : splitAtNl buf with
    | none =>
      rw [restOf_of_none h, afterLastNl_of_no_nl (splitAtNl_eq_none.mp h)]
    | some p =>
      obtain ⟨l, r⟩ := p
      have hshape := splitAtNl_shape buf h
      rw [restOf_of_some h, hshape, afterLastNl_append_nl, ih l r h]

/-- Chunk-decomposition of the parse loop: processing `a ++ b` processes
the complete lines of `a`, then continues on the residue of `a`
prepended to `b`. -/
theorem processBuffer_append {M : Type} (f : List Nat → Option M) (a b : List Nat) :
    processBuffer f (a ++ b) =
      ((processBuffer f a).1 ++ (processBuffer f ((processBuffer f a).2 ++ b)).1,
       (processBuffer f ((processBuffer f a).2 ++ b)).2) := by
  induction a using splitAtNl_induction with
  | step a ih =>
    cases h : splitAtNl a with
    | none =>
      rw [processBuffer_of_none f h]
      simp
    | some p =>
      obtain ⟨l, r⟩ := p
      have hsplit : splitAtNl (a ++ b) = some (l, r ++ b) := splitAtNl_append_some b h
      rw [processBuffer_of_some f hsplit, processBuffer_of_some f h, ih l r h]
      cases lineResult f l with
      | none => simp
      | some x => simp

theorem linesOf_append_no_nl {t : List Nat} (s : List Nat) (ht : 10 ∉ t) :
    linesOf (s ++ t) = linesOf s := by
  induction s using splitAtNl_induction with
  | step s ih =>
    cases h : splitAtNl s with
    | none =>
      have hst : 10 ∉ s ++ t := by
        intro hm
        rcases List.mem_append.mp hm with hm | hm
        · exact (splitAtNl_eq_none.mp h) hm
        · exact ht hm
      rw [linesOf_of_none h, linesOf_of_none (splitAtNl_eq_none.mpr hst)]
    | some p =>
      obtain ⟨l, r⟩ := p
      rw [linesOf_of_some (splitAtNl_append_some t h), linesOf_of_some h, ih l r h]

theorem feedChunks_snoc {M : Type} (f : List Nat → Option M)
    (chunks : List (List Nat)) (c : List Nat) :
    feedChunks f (chunks ++ [c]) =
      ((feedChunks f chunks).1 ++ ((feedChunks f chunks).2.parse f c).1,
       ((feedChunks f chunks).2.parse f c).2) := by
  unfold feedChunks
  rw [List.foldl_append]
  rfl

/-- C1 helper: feeding chunks sequentially equals one whole-stream call. -/
theorem feedChunks_eq_whole {M : Type} (f : List Nat → Option M)
    (chunks : List (List Nat)) :
    feedChunks f chunks = CargoCheck.parse f ⟨[]⟩ chunks.flatten := by
  induction chunks using List.reverseRecOn with
  | nil =>
    simp [feedChunks, CargoCheck.parse,
      processBuffer_of_none f (show splitAtNl [] = none from rfl)]
  | append_singleton chunks c ih =>
    rw [feedChunks_snoc, ih]
    simp only [CargoCheck.parse, List.flatten_append, List.flatten_cons,
      List.flatten_nil, List.append_nil, List.nil_append]
    rw [processBuffer_append f chunks.flatten c]

/-- C1.  For every byte stream and every way of splitting it into chunks
fed sequentially to a freshly created tool's `parse`, the concatenation
of the per-call result vectors (and the final buffer) equals the result
of one whole-stream call; each call returns exactly the per-line results
of the lines completed during that call, in completion order; and
`CargoLibtest::parse` computes the very same results and buffer as
`CargoCheck::parse`. -/
theorem chunk_boundary_invariance {M : Type} (f : List Nat → Option M) :
    (∀ chunks : List (List Nat),
      feedChunks f chunks = CargoCheck.parse f ⟨[]⟩ chunks.flatten)
    ∧ (∀ st buf : List Nat,
      (CargoCheck.parse f ⟨st⟩ buf).1 =
        (linesOf (st ++ buf)).filterMap (lineResult f))
    ∧ (∀ st buf : List Nat,
      CargoLibtest.parse f ⟨st⟩ buf =
        ((CargoCheck.parse f ⟨st⟩ buf).1, ⟨(CargoCheck.parse f ⟨st⟩ buf).2.buffer⟩)) := by
  refine ⟨feedChunks_eq_whole f, ?_, ?_⟩
  · intro st buf
    simp [CargoCheck.parse, processBuffer_eq]
  · intro st buf
    simp [CargoCheck.parse, CargoLibtest.parse]

/-- C2.  After every call the buffer holds exactly the suffix of the
input received so far that follows the last line terminator, and that
suffix holds no terminator; a stream ending in an undelimited trailing
fragment produces no result for that fragment (it is retained, not
reported). -/
theorem buffer_invariant {M : Type} (f : List Nat → Option M) :
    (∀ st buf : List Nat, 10 ∉ st →
      (CargoCheck.parse f ⟨st⟩ buf).2.buffer = afterLastNl (st ++ buf)
      ∧ 10 ∉ (CargoCheck.parse f ⟨st⟩ buf).2.buffer)
    ∧ (∀ chunks : List (List Nat),
      (feedChunks f chunks).2.buffer = afterLastNl chunks.flatten)
    ∧ (∀ s t : List Nat, 10 ∉ t →
      (CargoCheck.parse f ⟨[]⟩ (s ++ t)).1 = (CargoCheck.parse f ⟨[]⟩ s).1) := by
  refine ⟨?_, ?_, ?_⟩
  · intro st buf _
    constructor
    · simp [CargoCheck.parse, processBuffer_eq, restOf_eq_afterLastNl]
    · simp only [CargoCheck.parse, processBuffer_eq]
      exact restOf_no_nl (st ++ buf)
  · intro chunks
    rw [feedChunks_eq_whole]
    simp [CargoCheck.parse, processBuffer_eq, restOf_eq_afterLastNl]
  · intro s t ht
    simp [CargoCheck.parse, processBuffer_eq, linesOf_append_no_nl s ht]

/-- C2 witness: concrete instantiation of `buffer_invariant`. -/
theorem buffer_invariant_witness :
    (10 : Nat) ∉ ([] : List Nat)
    ∧ ((CargoCheck.parse (fun _ => (none : Option Nat)) ⟨[]⟩ [97, 10, 98]).2.buffer =
        afterLastNl ([] ++ [97, 10, 98])
      ∧ 10 ∉ (CargoCheck.parse (fun _ => (none : Option Nat)) ⟨[]⟩ [97, 10, 98]).2.buffer) :=
  ⟨by decide,
   (buffer_invariant (fun _ => (none : Option Nat))).1 [] [97, 10, 98] (by decide)⟩

/-- C3.  A completed non-empty line that fails to deserialize yields an
`Err` entry precisely when its first byte is the opening brace, and is
silently dropped otherwise; an empty line contributes nothing; and a
per-line failure never aborts the parsing of subsequent lines (the rest
of the stream parses exactly as it would on its own). -/
theorem error_reporting_policy {M : Type} (f : List Nat → Option M)
    (line rest : List Nat) (hn : 10 ∉ line) :
    (line ≠ [] → f line = none →
      (CargoCheck.parse f ⟨[]⟩ (line ++ 10 :: rest)).1 =
        (if line.head? = some 123 then [ParseResult.err line] else [])
          ++ (CargoCheck.parse f ⟨[]⟩ rest).1)
    ∧ (CargoCheck.parse f ⟨[]⟩ (10 :: rest)).1 = (CargoCheck.parse f ⟨[]⟩ rest).1 := by
  constructor
  · intro hne hf
    have hsplit : splitAtNl (line ++ 10 :: rest) = some (line, rest) := by
      rw [splitAtNl_append_no_nl (10 :: rest) hn]
      simp [splitAtNl]
    simp only [CargoCheck.parse, List.nil_append]
    rw [processBuffer_of_some f hsplit]
    simp only [lineResult, if_neg hne, hf]
    cases hh : line.head? == some 123 with
    | true =>
      have : line.head? = some 123 := by simpa using hh
      simp [this]
    | false =>
      have : ¬ line.head? = some 123 := by simpa using hh
      simp [this]
  · have hsplit : splitAtNl (10 :: rest) = some ([], rest) := by simp [splitAtNl]
    simp only [CargoCheck.parse, List.nil_append]
    rw [processBuffer_of_some f hsplit]
    simp [lineResult]

/-- C3 witness: a failing brace-line yields exactly one `Err`, at a
concrete input. -/
theorem error_reporting_policy_witness :
    ((10 : Nat) ∉ [123, 97])
    ∧ (([123, 97] : List Nat) ≠ [] → (fun _ => (none : Option Nat)) [123, 97] = none →
      (CargoCheck.parse (fun _ => (none : Option Nat)) ⟨[]⟩ ([123, 97] ++ 10 :: [])).1 =
        (if ([123, 97] : List Nat).head? = some 123 then [ParseResult.err [123, 97]] else [])
          ++ (CargoCheck.parse (fun _ => (none : Option Nat)) ⟨[]⟩ []).1) :=
  ⟨by decide,
   (error_reporting_policy (fun _ => (none : Option Nat)) [123, 97] [] (by decide)).1⟩

theorem detect_fold_counts (g : List Nat → Bool) :
    ∀ (lines : List (List Nat)) (a b : Nat),
      a + lines.countP g ≤ 255 →
      b + lines.countP (fun l => !g l) ≤ 255 →
      lines.foldl
        (fun (oe : Nat × Nat) line =>
          if g line then (satAdd255 oe.1, oe.2) else (oe.1, satAdd255 oe.2))
        (a, b) =
      (a + lines.countP g, b + lines.countP (fun l => !g l)) := by
  intro lines
  induction lines with
  | nil => intro a b _ _; simp
  | cons l ls ih =>
    intro a b ha hb
    cases hg : g l with
    | true =>
      have hc : (l :: ls).countP g = ls.countP g + 1 := by
        simp [List.countP_cons, hg]
      have hc2 : (l :: ls).countP (fun x => !g x) = ls.countP (fun x => !g x) := by
        simp [List.countP_cons, hg]
      have hsat : satAdd255 a = a + 1 := by
        unfold satAdd255
        rw [hc] at ha
        omega
      have hfold : List.foldl
          (fun (oe : Nat × Nat) line =>
            if g line then (satAdd255 oe.1, oe.2) else (oe.1, satAdd255 oe.2))
          (a, b) (l :: ls)
          = List.foldl
          (fun (oe : Nat × Nat) line =>
            if g line then (satAdd255 oe.1, oe.2) else (oe.1, satAdd255 oe.2))
          (a + 1, b) ls := by
        rw [List.foldl_cons]
        congr 1
        simp [hg, hsat]
      rw [hfold, ih (a + 1) b (by rw [hc] at ha; omega) (by rw [hc2] at hb; exact hb),
        hc, hc2]
      simp only [Prod.mk.injEq]
      constructor <;> first
        | omega
        | trivial
    | false =>
      have hc : (l :: ls).countP g = ls.countP g := by
        simp [List.countP_cons, hg]
      have hc2 : (l :: ls).countP (fun x => !g x) = ls.countP (fun x => !g x) + 1 := by
        simp [List.countP_cons, hg]
      have hsat : satAdd255 b = b + 1 := by
        unfold satAdd255
        rw [hc2] at hb
        omega
      have hfold : List.foldl
          (fun (oe : Nat × Nat) line =>
            if g line then (satAdd255 oe.1, oe.2) else (oe.1, satAdd255 oe.2))
          (a, b) (l :: ls)
          = List.foldl
          (fun (oe : Nat × Nat) line =>
            if g line then (satAdd255 oe.1, oe.2) else (oe.1, satAdd255 oe.2))
          (a, b + 1) ls := by
        rw [List.foldl_cons]
        congr 1
        simp [hg, hsat]
      rw [hfold, ih a (b + 1) (by rw [hc] at ha; exact ha) (by rw [hc2] at hb; omega),
        hc, hc2]
      simp only [Prod.mk.injEq]
      constructor <;> first
        | omega
        | trivial

/-- C4 counterexample: a sample whose second line is invalid UTF-8.  The
counting pass stops there (`map_while(Result::ok)`), so detection
accepts on the strength of the single preceding line although only one
of the four successfully delimited lines of the sample deserializes —
not a strict majority, for which the spec requires no detection. -/
theorem detection_majority_counterexample :
    (CargoCheck.detect (fun l => l == [120])
      [120, 10, 255, 10, 121, 10, 121, 10, 121, 10]).isSome = true
    ∧ specDetectAccepts (fun l => l == [120])
      [120, 10, 255, 10, 121, 10, 121, 10, 121, 10] = false := by
  constructor
  · decide
  · decide

/-- C4 (amended).  `CargoCheck::detect` accepts precisely when a strict
majority of the UTF-8-decodable lines up to (and excluding) the first
invalid line deserialize — an exact tie or minority fails — provided
that counted prefix stays within the `u8` saturation bound of the
counters; the counting pass is a total function (it never panics), but
a non-UTF-8 line ends it rather than merely counting against it. -/
theorem detection_strict_majority (g : List Nat → Bool) (sample : List Nat)
    (hlen : (countedLines sample).length ≤ 255) :
    (CargoCheck.detect g sample).isSome = true ↔
      2 * (countedLines sample).countP g > (countedLines sample).length := by
  have hcg : (countedLines sample).countP g ≤ (countedLines sample).length :=
    List.countP_le_length _
  have hcn : (countedLines sample).countP (fun l => !g l) ≤ (countedLines sample).length :=
    List.countP_le_length _
  have hsum : (countedLines sample).length =
      (countedLines sample).countP g + (countedLines sample).countP (fun l => !g l) := by
    induction countedLines sample with
    | nil => simp
    | cons x xs ih =>
      simp only [List.length_cons, List.countP_cons, ih]
      cases g x <;> simp <;> omega
  unfold CargoCheck.detect
  rw [detect_fold_counts g (countedLines sample) 0 0 (by omega) (by omega)]
  simp only [Nat.zero_add]
  constructor
  · intro h
    by_cases hlt : (countedLines sample).countP (fun l => !g l) < (countedLines sample).countP g
    · omega
    · rw [if_neg (by simpa using hlt)] at h
      simp at h
  · intro h
    rw [if_pos (by omega)]
    rfl

/-- C4 witness: a one-line sample that deserializes detects the tool. -/
theorem detection_strict_majority_witness :
    (countedLines [120, 10]).length ≤ 255
    ∧ ((CargoCheck.detect (fun _ => true) [120, 10]).isSome = true ↔
        2 * (countedLines [120, 10]).countP (fun _ => true) >
          (countedLines [120, 10]).length) :=
  ⟨by decide, detection_strict_majority (fun _ => true) [120, 10] (by decide)⟩

/-- C5.  Top-level detection tries `CargoCheck` first, then
`CargoLibtest`, returns the first tool whose detector accepts, and when
no detector accepts returns the explicit `NoToolDetected` error and no
tool. -/
theorem detect_priority_order (g : List Nat → Bool) (sample : List Nat) :
    (detect g sample = .ok .cargoCheck ↔ (CargoCheck.detect g sample).isSome = true)
    ∧ (detect g sample = .ok .cargoLibtest ↔
        (CargoCheck.detect g sample).isNone = true ∧ CargoLibtest.detect sample = true)
    ∧ (detect g sample = .error .noToolDetected ↔
        (CargoCheck.detect g sample).isNone = true ∧ CargoLibtest.detect sample = false) := by
  cases hc : CargoCheck.detect g sample with
  | some t =>
    refine ⟨?_, ?_, ?_⟩ <;> simp [detect, hc]
  | none =>
    cases hl : CargoLibtest.detect sample with
    | true => refine ⟨?_, ?_, ?_⟩ <;> simp [detect, hc, hl]
    | false => refine ⟨?_, ?_, ?_⟩ <;> simp [detect, hc, hl]

theorem windows_length {α : Type} (n : Nat) :
    ∀ (l : List α), ∀ w ∈ windows n l, w.length = n := by
  have key : ∀ (m : Nat) (l : List α), l.length ≤ m →
      ∀ w ∈ windows n l, w.length = n := by
    intro m
    induction m with
    | zero =>
      intro l hl w hw
      rw [windows] at hw
      by_cases h0 : n = 0
      · rw [if_pos h0] at hw; cases hw
      · rw [if_neg h0] at hw
        by_cases hlen : l.length < n
        · rw [if_pos hlen] at hw; cases hw
        · omega
    | succ m ih =>
      intro l hl w hw
      rw [windows] at hw
      by_cases h0 : n = 0
      · rw [if_pos h0] at hw; cases hw
      · rw [if_neg h0] at hw
        by_cases hlen : l.length < n
        · rw [if_pos hlen] at hw; cases hw
        · rw [if_neg hlen] at hw
          rcases List.mem_cons.mp hw with hw | hw
          · subst hw
            rw [List.length_take]
            omega
          · apply ih l.tail _ w hw
            cases l with
            | nil => simp at hlen; omega
            | cons x xs => simp at hl ⊢; omega
  intro l
  exact key l.length l le_rfl

/-- C10.  `CargoLibtest::detect` never accepts any sample: every 8-byte
window is compared for equality with the 7-byte `type`-field pattern,
so no window can ever match. -/
theorem libtest_detect_never_accepts (sample : List Nat) :
    CargoLibtest.detect sample = false := by
  unfold CargoLibtest.detect
  rw [List.any_eq_false]
  intro w hw
  have hlen := windows_length 8 sample w hw
  have hne : w ≠ typeFieldPat := by
    intro heq
    rw [heq] at hlen
    simp [typeFieldPat] at hlen
  rw [beq_iff_eq]
  exact hne


/-! ### GitHub command shape (C8) -/

theorem intercalate_go_eq_foldl (sep : String) (xs : List String) :
    ∀ (acc : String), String.intercalate.go acc sep xs =
      xs.foldl (fun a y => a ++ sep ++ y) acc := by
  induction xs with
  | nil => intro acc; simp [String.intercalate.go]
  | cons y ys ih => intro acc; simp [String.intercalate.go, ih]

theorem intercalate_eq_foldl (sep x : String) (xs : List String) :
    String.intercalate sep (x :: xs) = xs.foldl (fun a y => a ++ sep ++ y) x := by
  rw [String.intercalate, intercalate_go_eq_foldl]

theorem renderFold_started (parts : List (Option String)) :
    ∀ s : String,
      (parts.foldl
        (fun (acc : String × Bool) v =>
          match v with
          | some x => (acc.1 ++ (if acc.2 then "," else "") ++ x, true)
          | none => acc)
        (s, true)).1 =
      (parts.filterMap id).foldl (fun a y => a ++ "," ++ y) s := by
  induction parts with
  | nil => intro s; simp
  | cons v vs ih =>
    intro s
    cases v with
    | none => simp [List.filterMap_cons, ih]
    | some x => simp [List.filterMap_cons, ih]

theorem render_eq_intercalate (p : AnnotationParams) :
    p.render = String.intercalate "," (p.paramParts.filterMap id) := by
  unfold AnnotationParams.render
  generalize p.paramParts = parts
  induction parts with
  | nil => rfl
  | cons v vs ih =>
    cases v with
    | none => simpa [List.filterMap_cons] using ih
    | some x =>
      simp only [List.foldl_cons, List.filterMap_cons, id]
      rw [renderFold_started, intercalate_eq_foldl]
      have hx : "" ++ (if false then "," else "") ++ x = x := by simp
      rw [hx]

/-- C8 counterexample: with no parameter present the annotation builders
still emit the space after the command — `::notice ::…` — while the
claimed shape drops the bracketed part including its leading space. -/
theorem annotation_space_counterexample :
    GitHub.notice "Build completed" AnnotationParams.empty = "::notice ::Build completed\n"
    ∧ GitHub.notice "Build completed" AnnotationParams.empty ≠
        specAnnotationNoParams "notice" "Build completed" := by
  constructor
  · rfl
  · decide

/-- C8 (amended).  Every builder writes `::<command>` then, for the
three annotation commands, a space and the comma-joined present
parameters in the fixed order file, line, col, endLine, endColumn,
title with no separator before the first (the space is present even
with no parameters), then `::<text>` and a terminating newline — a
single one when the text and parameters hold none. -/
theorem github_command_shape (m value token : String) (enable : Bool)
    (p : AnnotationParams) :
    GitHub.debug m = "::debug::" ++ m ++ "\n"
    ∧ GitHub.notice m p = "::notice " ++ p.render ++ "::" ++ m ++ "\n"
    ∧ GitHub.warning m p = "::warning " ++ p.render ++ "::" ++ m ++ "\n"
    ∧ GitHub.error m p = "::error " ++ p.render ++ "::" ++ m ++ "\n"
    ∧ GitHub.group m = "::group::" ++ m ++ "\n"
    ∧ GitHub.endgroup = "::endgroup::\n"
    ∧ GitHub.add_mask value = "::add-mask::" ++ value ++ "\n"
    ∧ GitHub.stop_commands token = "::stop-commands::" ++ token ++ "\n"
    ∧ GitHub.echo enable = "::echo::" ++ (if enable then "on" else "off") ++ "\n"
    ∧ p.render = String.intercalate "," (p.paramParts.filterMap id)
    ∧ (GitHub.notice m p).data.count '\n' =
        m.data.count '\n' + p.render.data.count '\n' + 1 := by
  refine ⟨rfl, rfl, rfl, rfl, rfl, rfl, rfl, rfl, rfl, render_eq_intercalate p, ?_⟩
  have h1 : ("::notice " : String).data.count '\n' = 0 := by decide
  have h2 : ("::" : String).data.count '\n' = 0 := by decide
  have h3 : ("\n" : String).data.count '\n' = 1 := by decide
  simp [GitHub.notice, List.count_append, h1, h2, h3]
  omega


/-! ### Diagnostic rendering (C7) and group lifecycle (C9) -/

/-- C7.  Rendering the Warning/"E001" diagnostic with its primary span
at `a.rs` line 3 column 5 for GitHub produces an annotation line using
the warning command, containing `file=a.rs,line=3,col=5`, and titled
with a string embedding "E001". -/
theorem diagnostic_warning_annotation :
    warningDiagnosticE001.formatGitHub =
      "::warning file=a.rs,line=3,col=5,endLine=3,endColumn=6,title=warning: E001::unused variable\n"
    ∧ ("::warning " : String).data <+: warningDiagnosticE001.formatGitHub.data
    ∧ ("file=a.rs,line=3,col=5" : String).data <:+: warningDiagnosticE001.formatGitHub.data
    ∧ ("title=warning: E001" : String).data <:+: warningDiagnosticE001.formatGitHub.data := by
  refine ⟨by decide, by decide, by decide, by decide⟩


/-- C9.  Under GitHub rendering, `SuiteMessage::Discovery` renders to a
group-opening command and `Completed` opens with the group-closing
command; `TestMessage::Started` renders to a group-opening command and
each of `Ok`, `Failed` and `Timeout` renders output containing the
group-closing command — the group opened for a test is closed by that
test's terminal message, so no group straddles two tests. -/
theorem group_lifecycle :
    (SuiteMessage.formatGitHub .discovery = GitHub.group "Test Discovery"
      ∧ GitHub.group "Test Discovery" = "::group::Test Discovery\n")
    ∧ (∀ t b tot i, GitHub.endgroup.data <+:
        (SuiteMessage.formatGitHub (.completed t b tot i)).data)
    ∧ (∀ name, TestMessage.formatGitHub (.started name) = GitHub.group ("Test: " ++ name))
    ∧ (∀ name et so, GitHub.endgroup.data <:+
        (TestMessage.formatGitHub (.ok name et so)).data)
    ∧ (∀ name et so msg, GitHub.endgroup.data <:+:
        (TestMessage.formatGitHub (.failed name et so msg)).data)
    ∧ (∀ name, GitHub.endgroup.data <+:
        (TestMessage.formatGitHub (.timeout name)).data) := by
  refine ⟨⟨rfl, rfl⟩, ?_, ?_, ?_, ?_, ?_⟩
  · intro t b tot i
    simp only [SuiteMessage.formatGitHub, String.data_append]
    exact List.prefix_append _ _
  · intro name
    rfl
  · intro name et so
    simp only [TestMessage.formatGitHub, String.data_append]
    exact List.suffix_append _ _
  · intro name et so msg
    simp only [TestMessage.formatGitHub, String.data_append]
    exact ⟨(match so with
      | some v => if v = "" then "" else v ++ "\n"
      | none => "").data,
      (GitHub.notice (msg.getD "")
        ⟨none, none, none, none, none,
         some ("Test Failed: " ++ name
           ++ (match et with
               | some t => " (executed in " ++ fmt2 t ++ "s)"
               | none => ""))⟩).data,
      by simp⟩
  · intro name
    simp only [TestMessage.formatGitHub, String.data_append]
    exact List.prefix_append _ _


/-! ### Wire round-trip lemmas (C6) -/

@[simp]
theorem jNat_natCast (n : Nat) : jNat (.num (n : ℚ)) = some n := by
  simp [jNat]

@[simp]
theorem isNull_null : Json.isNull Json.null = true := rfl

@[simp]
theorem isNull_str (s : String) : (Json.str s).isNull = false := rfl

@[simp]
theorem isNull_num (q : ℚ) : (Json.num q).isNull = false := rfl

@[simp]
theorem isNull_bool (b : Bool) : (Json.bool b).isNull = false := rfl

@[simp]
theorem isNull_arr (xs : List Json) : (Json.arr xs).isNull = false := rfl

@[simp]
theorem isNull_obj (fs : List (String × Json)) : (Json.obj fs).isNull = false := rfl

theorem mapM_rt_aux {α : Type} (enc : α → Json) (dec : Json → Option α)
    (h : ∀ a, dec (enc a) = some a) :
    ∀ (xs : List α) (acc : List α),
      List.mapM.loop dec (xs.map enc) acc = some (acc.reverse ++ xs) := by
  intro xs
  induction xs with
  | nil => intro acc; simp [List.mapM.loop]
  | cons x xs ih =>
    intro acc
    simp [List.mapM.loop, h x, ih (x :: acc)]

theorem mapM_rt {α : Type} (enc : α → Json) (dec : Json → Option α)
    (h : ∀ a, dec (enc a) = some a) (xs : List α) :
    List.mapM.loop dec (xs.map enc) [] = some xs := by
  simpa using mapM_rt_aux enc dec h xs []

theorem rt_DiagnosticLevel (l : DiagnosticLevel) :
    decodeDiagnosticLevel (encodeDiagnosticLevel l) = some l := by
  cases l <;> rfl

theorem rt_SuggestionApplicability (a : SuggestionApplicability) :
    decodeSuggestionApplicability (encodeSuggestionApplicability a) = some a := by
  cases a <;> rfl

theorem rt_DiagnosticCode (c : DiagnosticCode) :
    decodeDiagnosticCode (encodeDiagnosticCode c) = some c := by
  obtain ⟨code, expl⟩ := c
  cases expl <;>
    simp [encodeDiagnosticCode, decodeDiagnosticCode, getReq, getOpt, jlookup,
      List.lookup, jStr, encOpt]

theorem rt_DiagnosticSpanLine (l : DiagnosticSpanLine) :
    decodeDiagnosticSpanLine (encodeDiagnosticSpanLine l) = some l := by
  obtain ⟨t, hs, he⟩ := l
  simp [encodeDiagnosticSpanLine, decodeDiagnosticSpanLine, getReq, jlookup,
    List.lookup, jStr, jNat_natCast]

theorem rt_Target (t : Target) : decodeTarget (encodeTarget t) = some t := by
  obtain ⟨k, ct, n, sp, ed, rf, d1, d2, d3⟩ := t
  have hs : ∀ s : String, jStr (.str s) = some s := fun s => rfl
  by_cases hrf : rf = []
  · subst hrf
    simp [encodeTarget, decodeTarget, getReq, jlookup, List.lookup, jStr, jBool,
      jArr, mapM_rt _ _ hs]
  · simp [encodeTarget, decodeTarget, getReq, jlookup, List.lookup, jStr, jBool,
      jArr, mapM_rt _ _ hs, hrf]


@[simp]
theorem isNull_encodeSA (a : SuggestionApplicability) :
    (encodeSuggestionApplicability a).isNull = false := by
  cases a <;> rfl

@[simp]
theorem isNull_encodeDiagnosticCode (c : DiagnosticCode) :
    (encodeDiagnosticCode c).isNull = false := rfl

@[simp]
theorem isNull_encodeDiagnosticSpan (s : DiagnosticSpan) :
    (encodeDiagnosticSpan s).isNull = false := by
  cases s
  simp [encodeDiagnosticSpan]

@[simp]
theorem isNull_encodeExpansion (e : DiagnosticSpanMacroExpansion) :
    (encodeDiagnosticSpanMacroExpansion e).isNull = false := by
  cases e
  simp [encodeDiagnosticSpanMacroExpansion]

mutual

theorem rt_DiagnosticSpan : ∀ (s : DiagnosticSpan),
    decodeDiagnosticSpan (encodeDiagnosticSpan s) = some s
  | .mk fn bs be ls le cs ce ip tx lb sr sa ex => by
    cases ex with
    | none =>
      cases lb <;> cases sr <;> cases sa <;>
        simp [encodeDiagnosticSpan, decodeDiagnosticSpan, getReq, getOpt, jlookup,
          List.lookup, jStr, jBool, jNat_natCast, jArr, encOpt, encodeExpansionOpt,
          mapM_rt _ _ rt_DiagnosticSpanLine, rt_SuggestionApplicability]
    | some e =>
      cases lb <;> cases sr <;> cases sa <;>
        simp [encodeDiagnosticSpan, decodeDiagnosticSpan, getReq, getOpt, jlookup,
          List.lookup, jStr, jBool, jNat_natCast, jArr, encOpt, encodeExpansionOpt,
          mapM_rt _ _ rt_DiagnosticSpanLine, rt_SuggestionApplicability,
          rt_DiagnosticSpanMacroExpansion e]

theorem rt_DiagnosticSpanMacroExpansion : ∀ (e : DiagnosticSpanMacroExpansion),
    decodeDiagnosticSpanMacroExpansion (encodeDiagnosticSpanMacroExpansion e) = some e
  | .mk sp nm ds => by
    cases ds with
    | none =>
      simp [encodeDiagnosticSpanMacroExpansion, decodeDiagnosticSpanMacroExpansion,
        getReq, jlookup, List.lookup, jStr, encodeSpanOpt, rt_DiagnosticSpan sp]
    | some s2 =>
      simp [encodeDiagnosticSpanMacroExpansion, decodeDiagnosticSpanMacroExpansion,
        getReq, jlookup, List.lookup, jStr, encodeSpanOpt, rt_DiagnosticSpan sp,
        rt_DiagnosticSpan s2]

end

mutual

theorem rt_Diagnostic : ∀ (d : Diagnostic),
    decodeDiagnostic (.obj (diagnosticFields d)) = some d
  | .mk msg code lvl spans children rendered => by
    cases code <;> cases rendered <;>
      simp [diagnosticFields, decodeDiagnostic, getReq, getOpt, jlookup,
        List.lookup, jStr, jArr, encOpt, rt_DiagnosticCode, rt_DiagnosticLevel,
        mapM_rt _ _ rt_DiagnosticSpan, rt_DiagnosticList children]

theorem rt_DiagnosticList : ∀ (ds : List Diagnostic),
    decodeDiagnosticList (encodeDiagnosticList ds) = some ds
  | [] => by simp [encodeDiagnosticList, decodeDiagnosticList]
  | d :: ds => by
    simp [encodeDiagnosticList, decodeDiagnosticList, rt_Diagnostic d,
      rt_DiagnosticList ds]

end


theorem rt_EmitKind (e : EmitKind) : decodeEmitKind (encodeEmitKind e) = some e := by
  cases e <;> rfl

theorem rt_TimingEvent (e : TimingEvent) :
    decodeTimingEvent (encodeTimingEvent e) = some e := by
  cases e <;> rfl

theorem jStr_rt (s : String) : jStr (.str s) = some s := rfl

theorem jPairStr_rt (p : String × String) :
    jPairStr (.arr [.str p.1, .str p.2]) = some p := rfl

theorem rt_FutureIncompatEntry (e : FutureIncompatEntry) :
    decodeFutureIncompatEntry (encodeFutureIncompatEntry e) = some e := by
  obtain ⟨d⟩ := e
  simp [encodeFutureIncompatEntry, decodeFutureIncompatEntry, getReq, jlookup,
    List.lookup, encodeDiagnostic, rt_Diagnostic d]

/-- Round trip of a tag-prefixed `Diagnostic` record (the internally
tagged `RustcMessage` carries the discriminant alongside the
diagnostic's own fields). -/
theorem rt_Diagnostic_tagged (d : Diagnostic) :
    decodeDiagnostic (.obj (("$message_type", .str "diagnostic") :: diagnosticFields d))
      = some d := by
  obtain ⟨msg, code, lvl, spans, children, rendered⟩ := d
  cases code <;> cases rendered <;>
    simp [diagnosticFields, decodeDiagnostic, getReq, getOpt, jlookup,
      List.lookup, jStr, jArr, encOpt, rt_DiagnosticCode, rt_DiagnosticLevel,
      mapM_rt _ _ rt_DiagnosticSpan, rt_DiagnosticList children]

theorem rt_RustcMessage (m : RustcMessage) :
    decodeRustcMessage (encodeRustcMessage m) = some m := by
  cases m with
  | diagnostic d =>
    simp [encodeRustcMessage, decodeRustcMessage, getReq, jlookup, List.lookup,
      jStr, rt_Diagnostic_tagged d]
  | artifact a =>
    obtain ⟨art, em⟩ := a
    simp [encodeRustcMessage, decodeRustcMessage, artifactFields, decodeArtifact,
      getReq, jlookup, List.lookup, jStr, rt_EmitKind]
  | futureIncompat f =>
    obtain ⟨entries⟩ := f
    simp [encodeRustcMessage, decodeRustcMessage, futureIncompatFields,
      decodeFutureIncompat, getReq, jlookup, List.lookup, jStr, jArr,
      mapM_rt _ _ rt_FutureIncompatEntry]
  | unusedExterns u =>
    obtain ⟨ll, names⟩ := u
    simp [encodeRustcMessage, decodeRustcMessage, unusedExternsFields,
      decodeUnusedExterns, getReq, jlookup, List.lookup, jStr, jArr,
      mapM_rt _ _ jStr_rt]
  | sectionTiming st =>
    obtain ⟨ev, nm, tm⟩ := st
    simp [encodeRustcMessage, decodeRustcMessage, sectionTimingFields,
      decodeSectionTiming, getReq, jlookup, List.lookup, jStr, rt_TimingEvent]

theorem rt_CompilerMessage (m : CompilerMessage) :
    decodeCompilerMessage
      (.obj (("reason", .str "compiler-message") :: compilerMessageFields m))
      = some m := by
  obtain ⟨p, mp, t, msg⟩ := m
  simp [compilerMessageFields, decodeCompilerMessage, getReq, jlookup,
    List.lookup, jStr, rt_Target, rt_RustcMessage]

theorem rt_CompilerArtifact (m : CompilerArtifact) :
    decodeCompilerArtifact
      (.obj (("reason", .str "compiler-artifact") :: compilerArtifactFields m))
      = some m := by
  obtain ⟨p, t⟩ := m
  simp [compilerArtifactFields, decodeCompilerArtifact, getReq, jlookup,
    List.lookup, jStr, rt_Target]

theorem rt_BuildScriptExecuted (m : BuildScriptExecuted) :
    decodeBuildScriptExecuted
      (.obj (("reason", .str "build-script-executed") :: buildScriptExecutedFields m))
      = some m := by
  obtain ⟨p, ll, lp, c, e, o⟩ := m
  simp [buildScriptExecutedFields, decodeBuildScriptExecuted, getReq, jlookup,
    List.lookup, jStr, jArr, mapM_rt _ _ jStr_rt, mapM_rt _ _ jPairStr_rt]

theorem rt_BuildFinished (m : BuildFinished) :
    decodeBuildFinished
      (.obj (("reason", .str "build-finished") :: buildFinishedFields m))
      = some m := by
  obtain ⟨su⟩ := m
  simp [buildFinishedFields, decodeBuildFinished, getReq, jlookup, List.lookup,
    jBool]

theorem rt_CargoMessage (m : CargoMessage) :
    decodeCargoMessage (encodeCargoMessage m) = some m := by
  cases m with
  | compilerMessage m =>
    simp [encodeCargoMessage, decodeCargoMessage, getReq, jlookup, List.lookup,
      jStr, rt_CompilerMessage m]
  | compilerArtifact m =>
    simp [encodeCargoMessage, decodeCargoMessage, getReq, jlookup, List.lookup,
      jStr, rt_CompilerArtifact m]
  | buildScriptExecuted m =>
    simp [encodeCargoMessage, decodeCargoMessage, getReq, jlookup, List.lookup,
      jStr, rt_BuildScriptExecuted m]
  | buildFinished m =>
    simp [encodeCargoMessage, decodeCargoMessage, getReq, jlookup, List.lookup,
      jStr, rt_BuildFinished m]


theorem jRat_rt (q : ℚ) : jRat (.num q) = some q := rfl

theorem rt_SuiteMessage (m : SuiteMessage) :
    decodeSuiteMessage (.obj (("type", .str "suite") :: suiteMessageFields m))
      = some m := by
  cases m with
  | discovery =>
    simp [suiteMessageFields, decodeSuiteMessage, getReq, jlookup, List.lookup, jStr]
  | completed t b tot i =>
    simp [suiteMessageFields, decodeSuiteMessage, getReq, jlookup, List.lookup, jStr]
  | started tc ss =>
    cases ss <;>
      simp [suiteMessageFields, decodeSuiteMessage, getReq, getOpt, jlookup,
        List.lookup, jStr, optField]
  | ok np nf ni nm nfo et =>
    cases et <;>
      simp [suiteMessageFields, decodeSuiteMessage, getReq, getOpt, jlookup,
        List.lookup, jStr, jRat_rt, optField]
  | failed np nf ni nm nfo et =>
    cases et <;>
      simp [suiteMessageFields, decodeSuiteMessage, getReq, getOpt, jlookup,
        List.lookup, jStr, jRat_rt, optField]

theorem rt_TestMessage (m : TestMessage) :
    decodeTestMessage (.obj (("type", .str "test") :: testMessageFields m))
      = some m := by
  cases m with
  | discovered name ig im sp sl sc el ec =>
    cases im <;>
      simp [testMessageFields, decodeTestMessage, getReq, getOpt, jlookup,
        List.lookup, jStr, jBool, optField]
  | started name =>
    simp [testMessageFields, decodeTestMessage, getReq, jlookup, List.lookup, jStr]
  | ok name et so =>
    cases et <;> cases so <;>
      simp [testMessageFields, decodeTestMessage, getReq, getOpt, jlookup,
        List.lookup, jStr, jRat_rt, optField]
  | failed name et so msg =>
    cases et <;> cases so <;> cases msg <;>
      simp [testMessageFields, decodeTestMessage, getReq, getOpt, jlookup,
        List.lookup, jStr, jRat_rt, optField]
  | timeout name =>
    simp [testMessageFields, decodeTestMessage, getReq, jlookup, List.lookup, jStr]
  | ignored name msg =>
    cases msg <;>
      simp [testMessageFields, decodeTestMessage, getReq, getOpt, jlookup,
        List.lookup, jStr, optField]

theorem rt_BenchMessage (m : BenchMessage) :
    decodeBenchMessage (.obj (("type", .str "bench") :: benchMessageFields m))
      = some m := by
  obtain ⟨name, med, dev, mps⟩ := m
  cases mps <;>
    simp [benchMessageFields, decodeBenchMessage, getReq, getOpt, jlookup,
      List.lookup, jStr, optField]

theorem rt_ReportMessage (m : ReportMessage) :
    decodeReportMessage (.obj (("type", .str "report") :: reportMessageFields m))
      = some m := by
  obtain ⟨tt, ct⟩ := m
  simp [reportMessageFields, decodeReportMessage, getReq, jlookup, List.lookup,
    jRat_rt]

theorem rt_LibTestMessage (m : LibTestMessage) :
    decodeLibTestMessage (encodeLibTestMessage m) = some m := by
  cases m with
  | suite m =>
    simp [encodeLibTestMessage, decodeLibTestMessage, getReq, jlookup,
      List.lookup, jStr, rt_SuiteMessage m]
  | test m =>
    simp [encodeLibTestMessage, decodeLibTestMessage, getReq, jlookup,
      List.lookup, jStr, rt_TestMessage m]
  | bench m =>
    simp [encodeLibTestMessage, decodeLibTestMessage, getReq, jlookup,
      List.lookup, jStr, rt_BenchMessage m]
  | report m =>
    simp [encodeLibTestMessage, decodeLibTestMessage, getReq, jlookup,
      List.lookup, jStr, rt_ReportMessage m]


theorem tol_CargoMessage (m : CargoMessage) (k : String) (v : Json)
    (hk : k ∉ cargoTopLevelKeys) :
    decodeCargoMessage (addField (encodeCargoMessage m) k v) = some m := by
  cases m with
  | compilerMessage m =>
    obtain ⟨p, mp, t, msg⟩ := m
    simp [addField, encodeCargoMessage, decodeCargoMessage, compilerMessageFields,
      decodeCompilerMessage, getReq, jlookup, List.lookup, jStr, rt_Target,
      rt_RustcMessage]
  | compilerArtifact m =>
    obtain ⟨p, t⟩ := m
    simp [addField, encodeCargoMessage, decodeCargoMessage, compilerArtifactFields,
      decodeCompilerArtifact, getReq, jlookup, List.lookup, jStr, rt_Target]
  | buildScriptExecuted m =>
    obtain ⟨p, ll, lp, c, e, o⟩ := m
    simp [addField, encodeCargoMessage, decodeCargoMessage,
      buildScriptExecutedFields, decodeBuildScriptExecuted, getReq, jlookup,
      List.lookup, jStr, jArr, mapM_rt _ _ jStr_rt, mapM_rt _ _ jPairStr_rt]
  | buildFinished m =>
    obtain ⟨su⟩ := m
    simp [addField, encodeCargoMessage, decodeCargoMessage, buildFinishedFields,
      decodeBuildFinished, getReq, jlookup, List.lookup, jStr, jBool]

theorem tol_LibTestMessage (m : LibTestMessage) (k : String) (v : Json)
    (hk : k ∉ libtestTopLevelKeys) :
    decodeLibTestMessage (addField (encodeLibTestMessage m) k v) = some m := by
  have hne : ∀ s : String, s ∈ libtestTopLevelKeys → (s == k) = false :=
    fun s hs => beq_eq_false_iff_ne.mpr (fun h => hk (h ▸ hs))
  have t1 := hne "shuffle_seed" (by simp [libtestTopLevelKeys])
  have t2 := hne "exec_time" (by simp [libtestTopLevelKeys])
  have t3 := hne "stdout" (by simp [libtestTopLevelKeys])
  have t4 := hne "message" (by simp [libtestTopLevelKeys])
  have t5 := hne "ignore_message" (by simp [libtestTopLevelKeys])
  have t6 := hne "mib_per_second" (by simp [libtestTopLevelKeys])
  cases m with
  | suite s =>
    cases s with
    | discovery =>
      simp [addField, encodeLibTestMessage, decodeLibTestMessage,
        suiteMessageFields, decodeSuiteMessage, getReq, jlookup, List.lookup, jStr]
    | completed t b tot i =>
      simp [addField, encodeLibTestMessage, decodeLibTestMessage,
        suiteMessageFields, decodeSuiteMessage, getReq, jlookup, List.lookup, jStr]
    | started tc ss =>
      cases ss <;>
        simp [addField, encodeLibTestMessage, decodeLibTestMessage,
          suiteMessageFields, decodeSuiteMessage, getReq, getOpt, jlookup,
          List.lookup, jStr, optField, t1]
    | ok np nf ni nm nfo et =>
      cases et <;>
        simp [addField, encodeLibTestMessage, decodeLibTestMessage,
          suiteMessageFields, decodeSuiteMessage, getReq, getOpt, jlookup,
          List.lookup, jStr, jRat_rt, optField, t2]
    | failed np nf ni nm nfo et =>
      cases et <;>
        simp [addField, encodeLibTestMessage, decodeLibTestMessage,
          suiteMessageFields, decodeSuiteMessage, getReq, getOpt, jlookup,
          List.lookup, jStr, jRat_rt, optField, t2]
  | test tm =>
    cases tm with
    | discovered name ig im sp sl sc el ec =>
      cases im <;>
        simp [addField, encodeLibTestMessage, decodeLibTestMessage,
          testMessageFields, decodeTestMessage, getReq, getOpt, jlookup,
          List.lookup, jStr, jBool, optField, t5]
    | started name =>
      simp [addField, encodeLibTestMessage, decodeLibTestMessage,
        testMessageFields, decodeTestMessage, getReq, jlookup, List.lookup, jStr]
    | ok name et so =>
      cases et <;> cases so <;>
        simp [addField, encodeLibTestMessage, decodeLibTestMessage,
          testMessageFields, decodeTestMessage, getReq, getOpt, jlookup,
          List.lookup, jStr, jRat_rt, optField, t2, t3]
    | failed name et so msg =>
      cases et <;> cases so <;> cases msg <;>
        simp [addField, encodeLibTestMessage, decodeLibTestMessage,
          testMessageFields, decodeTestMessage, getReq, getOpt, jlookup,
          List.lookup, jStr, jRat_rt, optField, t2, t3, t4]
    | timeout name =>
      simp [addField, encodeLibTestMessage, decodeLibTestMessage,
        testMessageFields, decodeTestMessage, getReq, jlookup, List.lookup, jStr]
    | ignored name msg =>
      cases msg <;>
        simp [addField, encodeLibTestMessage, decodeLibTestMessage,
          testMessageFields, decodeTestMessage, getReq, getOpt, jlookup,
          List.lookup, jStr, optField, t4]
  | bench b =>
    obtain ⟨name, med, dev, mps⟩ := b
    cases mps <;>
      simp [addField, encodeLibTestMessage, decodeLibTestMessage,
        benchMessageFields, decodeBenchMessage, getReq, getOpt, jlookup,
        List.lookup, jStr, optField, t6]
  | report r =>
    obtain ⟨tt, ct⟩ := r
    simp [addField, encodeLibTestMessage, decodeLibTestMessage,
      reportMessageFields, decodeReportMessage, getReq, jlookup, List.lookup,
      jStr, jStr_rt, jRat_rt]

/-- C6.  Every `CargoMessage` and every `LibTestMessage` — including the
recursively nested `Diagnostic` and its spans — round-trips through its
wire encoding, and decoding tolerates an unknown additional field in
the wire record. -/
theorem message_roundtrip :
    (∀ m : CargoMessage, decodeCargoMessage (encodeCargoMessage m) = some m)
    ∧ (∀ m : LibTestMessage, decodeLibTestMessage (encodeLibTestMessage m) = some m)
    ∧ (∀ (m : CargoMessage) (k : String) (v : Json), k ∉ cargoTopLevelKeys →
        decodeCargoMessage (addField (encodeCargoMessage m) k v) = some m)
    ∧ (∀ (m : LibTestMessage) (k : String) (v : Json), k ∉ libtestTopLevelKeys →
        decodeLibTestMessage (addField (encodeLibTestMessage m) k v) = some m) :=
  ⟨rt_CargoMessage, rt_LibTestMessage, tol_CargoMessage, tol_LibTestMessage⟩

/-- C6 witness: a concrete message round-trips with an unknown extra
field in its record. -/
theorem message_roundtrip_witness :
    ("extra" ∉ cargoTopLevelKeys)
    ∧ decodeCargoMessage
        (addField (encodeCargoMessage (.buildFinished ⟨true⟩)) "extra" .null)
        = some (.buildFinished ⟨true⟩) :=
  ⟨by decide,
   message_roundtrip.2.2.1 (.buildFinished ⟨true⟩) "extra" .null (by decide)⟩

end Cifmt
